import Mathlib

/-! # Interaction-requirement resolver (`lib/actions/authorization/interactions.js`)

A shallow embedding of the `interactions` middleware of the provider and the
properties of it that the specification states.

Conventions of the embedding

* A JavaScript ordinary object with string keys is the list of its own
  enumerable properties, in the order `OwnPropertyKeys` reports them:
  array-index keys first, ascending, then the other keys by insertion.
  An object literal and a spread define properties; `Object.assign` assigns
  them, and an assignment to `__proto__` reaches the accessor of
  `Object.prototype` instead of defining a property.
* Collaborators (check predicates, details resolvers, the interaction store,
  the destination resolver, the next stage) are functions of the request
  context that either return a value or reject with a `Failure`.
* `Promise.all` over the per-check closures is parameterised by the order in
  which the closures settle.
* Effects on the outside world are recorded, in order, in a trace of `Event`s.
-/

namespace OidcProvider

/-! ## JavaScript values and ordinary objects -/

/-- Property values that this middleware only moves around. -/
inductive JsValue where
  | undefined
  | null
  | bool (b : Bool)
  | number (n : Int)
  | string (s : String)
  deriving DecidableEq, Repr

/-- Own enumerable string-keyed properties, in `OwnPropertyKeys` order. -/
abbrev JsObject (α : Type) := List (String × α)

/-- Numeric value of a run of decimal digits. -/
def digitsValue (cs : List Char) : Nat :=
  cs.foldl (fun acc c => 10 * acc + (c.toNat - 48)) 0

/-- The array index a property key denotes, if it is a canonical numeric string
below `2^32 - 1` (such keys are enumerated first, in ascending order). -/
def arrayIndex? (k : String) : Option Nat :=
  match k.data with
  | [] => none
  | c :: cs =>
    if (c :: cs).all Char.isDigit && (cs.isEmpty || c != '0') then
      if digitsValue (c :: cs) < 2 ^ 32 - 1 then some (digitsValue (c :: cs)) else none
    else none

namespace JsObject

variable {α : Type}

/-- Property read, `o[k]`. -/
def get? (o : JsObject α) (k : String) : Option α :=
  (o.find? (fun p => p.1 = k)).map Prod.snd

/-- Own-property test. -/
def has (o : JsObject α) (k : String) : Bool :=
  o.any (fun p => p.1 = k)

/-- Places a new array-index key among the leading index keys, ascending. -/
def insertIndex (n : Nat) (k : String) (v : α) : JsObject α → JsObject α
  | [] => [(k, v)]
  | p :: rest =>
    match arrayIndex? p.1 with
    | some m => if n < m then (k, v) :: p :: rest else p :: insertIndex n k v rest
    | none => (k, v) :: p :: rest

/-- Definition of a data property (`CreateDataProperty`), as an object literal and a
spread do it: an existing key keeps its place, a new array-index key goes among the
index keys, any other new key goes last. -/
def define (o : JsObject α) (k : String) (v : α) : JsObject α :=
  if o.has k then o.map (fun p => if p.1 = k then (k, v) else p)
  else
    match arrayIndex? k with
    | some n => insertIndex n k v o
    | none => o ++ [(k, v)]

/-- Assignment `o[k] = v` (`Set`), as `Object.assign` does it, on an object that inherits
from `Object.prototype`: the name `__proto__`, unless it is an own property, reaches the
accessor of the prototype, which defines no property; any other name defines one.
The prototype itself is not part of the model: an object whose prototype an earlier
assignment of `null` to `__proto__` removed is treated as still inheriting the accessor,
which only bears on the key `__proto__` of such an object. -/
def set (o : JsObject α) (k : String) (v : α) : JsObject α :=
  if k = "__proto__" ∧ o.has k = false then o else o.define k v

/-- Copies the own properties of one source onto the target by assignment, in the key
order of the source. -/
def assignOne (target source : JsObject α) : JsObject α :=
  source.foldl (fun t p => t.set p.1 p.2) target

/-- The spread `{ ...target, ...source }` onto a fresh literal: the own properties of
the source are defined on the target, in the key order of the source. -/
def spread (target source : JsObject α) : JsObject α :=
  source.foldl (fun t p => t.define p.1 p.2) target

/-- `Object.assign(target, ...sources)`. -/
def assign (target : JsObject α) (sources : List (JsObject α)) : JsObject α :=
  sources.foldl assignOne target

/-- `Object.keys(o)`. -/
def keys (o : JsObject α) : List String := o.map Prod.fst

/-- `Object.values(o)`. -/
def values (o : JsObject α) : List α := o.map Prod.snd

/-- `Object.entries(o)`. -/
def entries (o : JsObject α) : List (String × α) := o

/-- An object has each key once. -/
def WellFormed (o : JsObject α) : Prop := (o.map Prod.fst).Nodup

instance (o : JsObject α) : Decidable (WellFormed o) := by
  unfold WellFormed; infer_instance

end JsObject

/-- JavaScript truthiness of an optional string (`undefined` and `""` are falsy). -/
def truthy : Option String → Bool
  | some s => s != ""
  | none => false

/-- The expression `v || d` for an optional string `v`. -/
def orElse (v : Option String) (d : String) : String :=
  match v with
  | some s => if s = "" then d else s
  | none => d

/-! ## Failures -/

/-- What a `throw` carries. -/
inductive Thrown where
  /-- A rejection raised by a collaborator. -/
  | external (id : String)
  /-- The runtime's own `TypeError`. -/
  | typeError
  /-- `new errors.AccessDenied(undefined, description)`. -/
  | accessDenied (description : String)
  /-- `new errors[className](description)`. -/
  | registered (className : String) (description : String)
  /-- `ctx.throw(status, message, { error_description })`. -/
  | http (status : Nat) (message : String) (error_description : String)
  deriving DecidableEq, Repr

/-- A thrown value together with the fields this middleware assigns on it
(`none`: left as the thrower made them). -/
structure Failure where
  thrown : Thrown
  status : Option Nat := none
  statusCode : Option Nat := none
  expose : Option Bool := none
  deriving DecidableEq, Repr

deriving instance DecidableEq for Except

/-- How an awaited promise ends; `pending` is a promise that never settles. -/
inductive Settled (α : Type) where
  | pending
  | rejected (f : Failure)
  | fulfilled (a : α)
  deriving DecidableEq, Repr

/-! ## Request context and configuration -/

/-- The end-user session as `ctx.oidc.session` exposes it. -/
structure Session where
  accountId : Option String
  uid : Option String
  jti : Option String
  acr : Option String
  amr : Option (List String)
  deriving DecidableEq, Repr

/-- The request context `ctx.oidc`. -/
structure Ctx where
  uid : String
  route : String
  /-- The value of `promptPending('none')`. -/
  promptNone : Bool
  /-- The value of `acceptedScope()`. -/
  acceptedScope : Option String
  session : Session
  /-- The value of `params.toPlainObject()`. -/
  params : JsObject JsValue
  signed : List String
  result : Option (JsObject JsValue)
  /-- The value of `deviceCode.userCode`, when there is a device code. -/
  deviceCode : Option String
  deriving DecidableEq, Repr

/-- One check of a prompt. -/
structure Check where
  reason : String
  description : Option String
  error : Option String
  details : Ctx → Except Failure (JsObject JsValue)
  check : Ctx → Except Failure Bool

/-- One configured prompt. -/
structure Prompt where
  name : String
  checks : List Check
  details : Ctx → Except Failure (JsObject JsValue)

/-- The value a failing check contributes under its reason. -/
structure CheckFailure where
  error : Option String
  description : Option String
  details : JsObject JsValue
  deriving DecidableEq, Repr

/-- The `prompt` object. -/
structure PromptDecision where
  name : String
  reasons : List String
  details : JsObject JsValue
  deriving DecidableEq, Repr

/-- The `failedCheck` object. -/
structure FailedCheck where
  error : String
  error_description : String
  deriving DecidableEq, Repr

/-- The `session` member of the interaction session. -/
structure SessionSnapshot where
  accountId : String
  uid : Option String
  cookie : Option String
  acr : Option String
  amr : Option (List String)
  deriving DecidableEq, Repr

/-- The payload handed to `new Interaction(uid, payload)`. -/
structure InteractionSession where
  jti : String
  returnTo : String
  prompt : PromptDecision
  lastSubmission : Option (JsObject JsValue)
  accountId : Option String
  uid : String
  params : JsObject JsValue
  signed : List String
  session : Option SessionSnapshot
  deriving DecidableEq, Repr

/-- Effects, in the order they happen. -/
inductive Event where
  /-- The predicate of check `c` of prompt `p` was called. -/
  | checkCalled (p c : Nat)
  /-- The details resolver of check `c` of prompt `p` was called. -/
  | checkDetailsCalled (p c : Nat)
  /-- The details resolver of prompt `p` was called. -/
  | promptDetailsCalled (p : Nat)
  /-- A line on a debug channel. -/
  | debug (channel : String)
  /-- `provider.emit(event, ctx, prompt?)`. -/
  | emit (event : String) (prompt : Option PromptDecision)
  /-- `next()`. -/
  | next
  /-- `interactionSession.save(maxAge / 1000)`; the expiry is recorded by `maxAge`. -/
  | save (session : InteractionSession) (maxAge : Option JsValue)
  /-- The configured `interactionUrl(ctx, interactionSession)` was called. -/
  | interactionUrlCalled (session : InteractionSession)
  /-- `ctx.cookies.set(name, value, options)`. -/
  | setCookie (name value : String) (options : JsObject JsValue)
  /-- `ctx.redirect(destination)`. -/
  | redirect (destination : String)
  deriving DecidableEq, Repr

/-- Configuration and collaborators reached through `ctx.oidc.provider`, `ctx` and
the required modules. -/
structure Env where
  /-- The value of `configuration('interactions')`. -/
  interactions : List Prompt
  /-- The value of `configuration('cookies.short')`. -/
  cookiesShort : JsObject JsValue
  /-- The function `configuration('interactionUrl')`. -/
  interactionUrl : Ctx → InteractionSession → Except Failure String
  /-- Whether `errors[className]` is defined. -/
  errors : String → Bool
  /-- The composition `upperFirst(camelCase(·))` of lodash. -/
  upperFirstCamelCase : String → String
  /-- The function `oidc.urlFor`. -/
  urlFor : String → JsObject JsValue → String
  /-- The value `url.parse(·).pathname`. -/
  pathname : String → JsValue
  /-- The function `provider.cookieName`. -/
  cookieName : String → String
  /-- The outcome of `interactionSession.save`. -/
  save : InteractionSession → Except Failure Unit
  /-- The outcome of `next()`. -/
  next : Except Failure Unit

/-- How a run of the middleware ends. -/
inductive Outcome where
  | returned
  | threw (f : Failure)
  | pending
  deriving DecidableEq, Repr

/-- A run: what happened, and how it ended. -/
structure Run where
  trace : List Event
  outcome : Outcome
  deriving DecidableEq, Repr

/-! ## Prompt resolution (the `for` loop) -/

/-- The async closure mapped over the checks of a prompt. -/
def checkTask (ctx : Ctx) (c : Check) : Except Failure (Option (JsObject CheckFailure)) :=
  match c.check ctx with
  | .error f => .error f
  | .ok false => .ok none
  | .ok true =>
    match c.details ctx with
    | .error f => .error f
    | .ok d => .ok (some [(c.reason, { error := c.error, description := c.description, details := d })])

/-- The settling of the closures in the given order: a value goes to the slot of its
closure, the first rejection rejects the whole. -/
def settle {α : Type} (tasks : List (Except Failure α)) :
    List Nat → List (Option α) → Settled (List α)
  | [], slots =>
    if slots.all Option.isSome then .fulfilled (slots.filterMap id) else .pending
  | i :: order, slots =>
    match tasks[i]? with
    | none => settle tasks order slots
    | some (.error f) => .rejected f
    | some (.ok v) => settle tasks order (slots.set i (some v))

/-- `Promise.all(tasks)`, the tasks settling in the order `order`. -/
def promiseAll {α : Type} (tasks : List (Except Failure α)) (order : List Nat) :
    Settled (List α) :=
  settle tasks order (List.replicate tasks.length none)

/-- Resolver calls made while the closures settle, up to the first rejection. Each closure
is followed as one step: the call of the details resolver of a check is recorded when its
closure settles, and the calls made by closures that settle after the first rejection,
which the awaiting loop no longer observes, are not recorded. -/
def settleEvents (ctx : Ctx) (p : Nat) (checks : List Check) : List Nat → List Event
  | [] => []
  | i :: order =>
    match checks[i]? with
    | none => settleEvents ctx p checks order
    | some c =>
      match c.check ctx with
      | .error _ => []
      | .ok false => settleEvents ctx p checks order
      | .ok true =>
        match c.details ctx with
        | .error _ => [Event.checkDetailsCalled p i]
        | .ok _ => Event.checkDetailsCalled p i :: settleEvents ctx p checks order

/-- The `prompt` and `failedCheck` objects made from the merged results and the details
of the prompt; destructuring the first entry of an empty object is a `TypeError`. -/
def buildDecision (name : String) (results : JsObject CheckFailure)
    (promptDetails : JsObject JsValue) : Settled (Option (PromptDecision × FailedCheck)) :=
  let prompt : PromptDecision :=
    { name := name
      reasons := results.keys
      details := JsObject.assign [] (promptDetails :: results.values.map (fun r => r.details)) }
  match results.entries with
  | [] => .rejected { thrown := .typeError }
  | (_, r) :: _ =>
    .fulfilled (some (prompt,
      { error := orElse r.error "interaction_required"
        error_description := orElse r.description "interaction is required from the end-user" }))

/-- The result of evaluating prompts: the trace and the awaited value. -/
structure Resolution where
  trace : List Event
  result : Settled (Option (PromptDecision × FailedCheck))
  deriving DecidableEq, Repr

/-- The body of the loop for the prompt at position `p`. -/
def evalPrompt (ctx : Ctx) (p : Nat) (pr : Prompt) (order : List Nat) : Resolution :=
  let called := (List.range pr.checks.length).map (Event.checkCalled p) ++
    settleEvents ctx p pr.checks order
  match promiseAll (pr.checks.map (checkTask ctx)) order with
  | .pending => ⟨called, .pending⟩
  | .rejected f => ⟨called, .rejected f⟩
  | .fulfilled slots =>
    let results := slots.filterMap id
    if results.length ≠ 0 then
      let results := JsObject.assign [] results
      match pr.details ctx with
      | .error f => ⟨called ++ [Event.promptDetailsCalled p], .rejected f⟩
      | .ok promptDetails =>
        ⟨called ++ [Event.promptDetailsCalled p], buildDecision pr.name results promptDetails⟩
    else ⟨called, .fulfilled none⟩

/-- The loop over the configured prompts, from position `p` on; `sched q` is the order
in which the checks of prompt `q` settle. -/
def resolvePrompts (ctx : Ctx) (sched : Nat → List Nat) : Nat → List Prompt → Resolution
  | _, [] => ⟨[], .fulfilled none⟩
  | p, pr :: rest =>
    let r := evalPrompt ctx p pr (sched p)
    match r.result with
    | .fulfilled none =>
      let r2 := resolvePrompts ctx sched (p + 1) rest
      ⟨r.trace ++ r2.trace, r2.result⟩
    | other => ⟨r.trace, other⟩

/-! ## The middleware -/

/-- The test `/^(code|device)_/.test(route)`. -/
def codeOrDeviceRoute (route : String) : Bool :=
  "code_".data.isPrefixOf route.data || "device_".data.isPrefixOf route.data

/-- The object `{ uid, ...(deviceCode ? { user_code: deviceCode.userCode } : undefined) }`. -/
def returnToParams (ctx : Ctx) : JsObject JsValue :=
  match ctx.deviceCode with
  | some userCode =>
    JsObject.spread (JsObject.define [] "uid" (.string ctx.uid))
      [("user_code", .string userCode)]
  | none => JsObject.define [] "uid" (.string ctx.uid)

/-- The `session` member: present when `session.accountId()` is truthy, each optional
member present when the session's value is truthy. -/
def sessionSnapshot (s : Session) : Option SessionSnapshot :=
  match s.accountId with
  | none => none
  | some accountId =>
    if accountId = "" then none
    else some
      { accountId := accountId
        uid := if truthy s.uid then s.uid else none
        cookie := if truthy s.jti then s.jti else none
        acr := if truthy s.acr then s.acr else none
        amr := s.amr }

/-- The payload of `new oidc.provider.Interaction(oidc.uid, { ... })`. -/
def buildInteractionSession (ctx : Ctx) (returnTo : String) (prompt : PromptDecision) :
    InteractionSession :=
  { jti := ctx.uid
    returnTo := returnTo
    prompt := prompt
    lastSubmission := ctx.result
    accountId := ctx.session.accountId
    uid := ctx.uid
    params := ctx.params
    signed := ctx.signed
    session := sessionSnapshot ctx.session }

/-- The options `{ path: url.parse(destination).pathname, ...cookieOptions }`. -/
def interactionCookieOptions (env : Env) (destination : String) : JsObject JsValue :=
  JsObject.spread (JsObject.define [] "path" (env.pathname destination)) env.cookiesShort

/-- The options `{ ...cookieOptions, path: url.parse(returnTo).pathname }`. -/
def resumeCookieOptions (env : Env) (returnTo : String) : JsObject JsValue :=
  JsObject.define (JsObject.spread [] env.cookiesShort) "path" (env.pathname returnTo)

/-- What `throw` raises under `prompt=none`, before the `catch` block. -/
def silentThrown (env : Env) (failedCheck : FailedCheck) : Thrown :=
  let className := env.upperFirstCamelCase failedCheck.error
  if env.errors className then .registered className failedCheck.error_description
  else .http 400 failedCheck.error failedCheck.error_description

/-- The `catch` block: status, statusCode and expose are assigned, the error rethrown. -/
def silentCatch (ctx : Ctx) (err : Thrown) : Failure :=
  let code := if codeOrDeviceRoute ctx.route then 400 else 302
  { thrown := err, status := some code, statusCode := some code, expose := some true }

/-- The part of the middleware after a prompt was found and `prompt=none` is not pending. -/
def startInteraction (env : Env) (resumeRouteName : String) (ctx : Ctx)
    (prompt : PromptDecision) (before : List Event) : Run :=
  let cookieOptions := env.cookiesShort
  let returnTo := env.urlFor resumeRouteName (returnToParams ctx)
  let interactionSession := buildInteractionSession ctx returnTo prompt
  let saving := before ++ [Event.save interactionSession (cookieOptions.get? "maxAge")]
  match env.save interactionSession with
  | .error f => ⟨saving, .threw f⟩
  | .ok _ =>
    let resolving := saving ++ [Event.interactionUrlCalled interactionSession]
    match env.interactionUrl ctx interactionSession with
    | .error f => ⟨resolving, .threw f⟩
    | .ok destination =>
      ⟨resolving ++
        [ Event.setCookie (env.cookieName "interaction") ctx.uid
            (interactionCookieOptions env destination),
          Event.setCookie (env.cookieName "resume") ctx.uid
            (resumeCookieOptions env returnTo),
          Event.debug "oidc-provider:authentication:interrupted",
          Event.emit "interaction.started" (some prompt),
          Event.redirect destination ],
        .returned⟩

/-- The description of the `AccessDenied` thrown when no account id was resolved. -/
def noAccountMessage : String :=
  "request resolved without requesting interactions but no account id was resolved"

/-- The description of the `AccessDenied` thrown when nothing was granted. -/
def noScopeMessage : String :=
  "request resolved without requesting interactions but scope was granted"

/-- The middleware `interactions(resumeRouteName, ctx, next)`. -/
def interactions (env : Env) (sched : Nat → List Nat) (resumeRouteName : String)
    (ctx : Ctx) : Run :=
  let r := resolvePrompts ctx sched 0 env.interactions
  match r.result with
  | .pending => ⟨r.trace, .pending⟩
  | .rejected f => ⟨r.trace, .threw f⟩
  | .fulfilled none =>
    if !truthy ctx.session.accountId then
      ⟨r.trace, .threw { thrown := .accessDenied noAccountMessage }⟩
    else if !truthy ctx.acceptedScope then
      ⟨r.trace, .threw { thrown := .accessDenied noScopeMessage }⟩
    else
      let trace := r.trace ++
        [ Event.debug "oidc-provider:authentication:accepted",
          Event.emit "authorization.accepted" none,
          Event.next ]
      match env.next with
      | .error f => ⟨trace, .threw f⟩
      | .ok _ => ⟨trace, .returned⟩
  | .fulfilled (some (prompt, failedCheck)) =>
    if ctx.promptNone then
      ⟨r.trace, .threw (silentCatch ctx (silentThrown env failedCheck))⟩
    else startInteraction env resumeRouteName ctx prompt r.trace

/-! ## Vocabulary of the properties -/

/-- Every closure of a prompt with `n` checks settles at some point of `order`. -/
def Settles (order : List Nat) (n : Nat) : Prop := ∀ i, i < n → i ∈ order

instance (order : List Nat) (n : Nat) : Decidable (Settles order n) := by
  unfold Settles; infer_instance

/-- The closures of every prompt of the list settle, the first prompt having position `p`. -/
def SettlesAll (sched : Nat → List Nat) : Nat → List Prompt → Prop
  | _, [] => True
  | p, pr :: rest => Settles (sched p) pr.checks.length ∧ SettlesAll sched (p + 1) rest

/-- The predicate of the check returns true. -/
def holds (ctx : Ctx) (c : Check) : Bool :=
  match c.check ctx with
  | .ok true => true
  | _ => false

/-- The mapping the details resolver of the check returns. -/
def detailsOf (ctx : Ctx) (c : Check) : JsObject JsValue :=
  match c.details ctx with
  | .ok d => d
  | .error _ => []

/-- Every collaborator of the prompt that gets called returns: each predicate a boolean,
the details resolver of each check whose predicate is true a mapping, and the details
resolver of the prompt a mapping. -/
def Returns (ctx : Ctx) (pr : Prompt) : Prop :=
  (∀ c ∈ pr.checks, (c.check ctx).isOk = true) ∧
  (∀ c ∈ pr.checks, c.check ctx = .ok true → (c.details ctx).isOk = true) ∧
  (pr.details ctx).isOk = true

instance (ctx : Ctx) (pr : Prompt) : Decidable (Returns ctx pr) := by
  unfold Returns; infer_instance

/-- The checks of the prompt whose predicate is true, in configured order. -/
def failingChecks (ctx : Ctx) (pr : Prompt) : List Check :=
  pr.checks.filter (holds ctx)

/-- The property a check whose predicate is true contributes to the results. -/
def failureEntry (ctx : Ctx) (c : Check) : String × CheckFailure :=
  (c.reason, { error := c.error, description := c.description, details := detailsOf ctx c })

/-- The results of a prompt merged into one object keyed by reason. -/
def failedChecksObject (ctx : Ctx) (pr : Prompt) : JsObject CheckFailure :=
  JsObject.assign [] ((failingChecks ctx pr).map (fun c => [failureEntry ctx c]))

/-- The prompt decision of a resolution, if it produced one. -/
def decisionOf : Settled (Option (PromptDecision × FailedCheck)) → Option PromptDecision
  | .fulfilled (some (d, _)) => some d
  | _ => none

/-- The primary failure of a resolution, if it produced one. -/
def failedCheckOf : Settled (Option (PromptDecision × FailedCheck)) → Option FailedCheck
  | .fulfilled (some (_, f)) => some f
  | _ => none

/-- The value the last of the contributors defining the key gives it, if any does. -/
def lastDefined {α : Type} (contributors : List (JsObject α)) (k : String) : Option α :=
  match contributors with
  | [] => none
  | c :: rest =>
    match lastDefined rest k with
    | some v => some v
    | none => c.get? k

/-- The contributors to the details of a decision: the mapping the details resolver of
the prompt returned, then the details of each check whose predicate is true, in
configured order. -/
def contributors (ctx : Ctx) (pr : Prompt) (promptDetails : JsObject JsValue) :
    List (JsObject JsValue) :=
  promptDetails :: (failingChecks ctx pr).map (detailsOf ctx)

/-- The events that set a cookie. -/
def Event.isSetCookie : Event → Bool
  | .setCookie _ _ _ => true
  | _ => false

/-- The events that are calls of check predicates and details resolvers. -/
def Event.isResolverCall : Event → Bool
  | .checkCalled _ _ => true
  | .checkDetailsCalled _ _ => true
  | .promptDetailsCalled _ => true
  | _ => false

/-- The events that save an interaction session. -/
def Event.isSave : Event → Bool
  | .save _ _ => true
  | _ => false

/-- The events that call the configured destination resolver. -/
def Event.isInteractionUrlCall : Event → Bool
  | .interactionUrlCalled _ => true
  | _ => false

/-- The position, in the configured list, of the prompt a resolver call belongs to. -/
def Event.promptIndex? : Event → Option Nat
  | .checkCalled p _ => some p
  | .checkDetailsCalled p _ => some p
  | .promptDetailsCalled p => some p
  | _ => none

/-- One call of each check predicate of each prompt of the list, prompt after prompt and
in configured order, the first prompt having position `p`. -/
def predicateCalls (p : Nat) : List Prompt → List Event
  | [] => []
  | q :: rest =>
    (List.range q.checks.length).map (Event.checkCalled p) ++ predicateCalls (p + 1) rest

/-- Whether, along the trace, every call of the destination resolver and every cookie
comes after a save; `saved` tells whether a save came before the trace. -/
def savedFirst (saved : Bool) : List Event → Bool
  | [] => true
  | .save _ _ :: rest => savedFirst true rest
  | .interactionUrlCalled _ :: rest => saved && savedFirst saved rest
  | .setCookie _ _ _ :: rest => saved && savedFirst saved rest
  | _ :: rest => savedFirst saved rest

/-- The failure of the closure of a check: its predicate rejects, or its predicate
returns true and its details resolver rejects. -/
def checkFailsWith (ctx : Ctx) (c : Check) (f : Failure) : Prop :=
  c.check ctx = .error f ∨ (c.check ctx = .ok true ∧ c.details ctx = .error f)

instance (ctx : Ctx) (c : Check) (f : Failure) : Decidable (checkFailsWith ctx c f) := by
  unfold checkFailsWith; infer_instance

end OidcProvider

/-! ## Sample configurations and requests -/

namespace OidcProvider

namespace Examples

/-- A session without an end-user. -/
def noSession : Session :=
  { accountId := none
    uid := none
    jti := none
    acr := none
    amr := none }

/-- A session of the end-user `alice`. -/
def aliceSession : Session :=
  { accountId := some "alice"
    uid := some "s-1"
    jti := some "j-1"
    acr := none
    amr := none }

/-- A request without an end-user session. -/
def anonymous : Ctx :=
  { uid := "u1"
    route := "authorization"
    promptNone := false
    acceptedScope := some "openid"
    session := noSession
    params := [("scope", .string "openid")]
    signed := []
    result := none
    deviceCode := none }

/-- A request of a signed-in end-user that was granted `openid`. -/
def signedIn : Ctx :=
  { anonymous with session := aliceSession }

/-- A request of a signed-in end-user that was granted nothing. -/
def signedInNoScope : Ctx :=
  { signedIn with acceptedScope := none }

/-- An anonymous `prompt=none` request on the device authorization route. -/
def silentDevice : Ctx :=
  { anonymous with route := "device_authorization", promptNone := true }

/-- The check `no_session` of the `login` prompt. -/
def noSessionCheck : Check :=
  { reason := "no_session"
    description := some "End-User authentication is required"
    error := some "login_required"
    details := fun _ => .ok []
    check := fun ctx => .ok (!truthy ctx.session.accountId) }

/-- The check `scopes_missing` of the `consent` prompt. -/
def scopesMissingCheck : Check :=
  { reason := "scopes_missing"
    description := some "requested scopes not granted by End-User"
    error := some "consent_required"
    details := fun _ => .ok [("scopes", .string "openid")]
    check := fun ctx => .ok (!truthy ctx.acceptedScope) }

/-- A check of the `consent` prompt that never asks for anything. -/
def claimsMissingCheck : Check :=
  { reason := "claims_missing"
    description := none
    error := none
    details := fun _ => .ok []
    check := fun _ => .ok false }

/-- A check whose reason is not a number. -/
def stepUpCheck : Check :=
  { reason := "step_up"
    description := some "a second factor is required"
    error := some "login_required"
    details := fun _ => .ok [("level", .number 1)]
    check := fun _ => .ok true }

/-- A check whose reason is the number `1` as a string. -/
def numberedCheck : Check :=
  { reason := "1"
    description := some "consent is required"
    error := some "consent_required"
    details := fun _ => .ok [("level", .number 2)]
    check := fun _ => .ok true }

/-- A prompt whose second check has a reason that is an array index. -/
def numbered : Prompt :=
  { name := "login"
    checks := [stepUpCheck, numberedCheck]
    details := fun _ => .ok [] }

/-- A check whose reason is the name of the prototype accessor. -/
def protoCheck : Check :=
  { reason := "__proto__"
    description := some "End-User authentication is required"
    error := some "login_required"
    details := fun _ => .ok []
    check := fun _ => .ok true }

/-- A prompt whose only check has the reason `__proto__`. -/
def protoPrompt : Prompt :=
  { name := "login"
    checks := [protoCheck]
    details := fun _ => .ok [] }

/-- The `login` prompt. -/
def login : Prompt :=
  { name := "login"
    checks := [noSessionCheck]
    details := fun _ => .ok [] }

/-- The `consent` prompt. -/
def consent : Prompt :=
  { name := "consent"
    checks := [scopesMissingCheck, claimsMissingCheck]
    details := fun _ => .ok [("client", .string "c1")] }

/-- Drops the underscores and puts the letter after each (and the first) in upper case. -/
def capitalizeWords : Bool → List Char → List Char
  | _, [] => []
  | up, c :: cs =>
    if c = '_' then capitalizeWords true cs
    else (if up then c.toUpper else c) :: capitalizeWords false cs

/-- What `upperFirst(camelCase(code))` is for a code made of lower-case words separated
by underscores: the words, each with its first letter in upper case, concatenated. -/
def capitalizedWords (code : String) : String :=
  String.mk (capitalizeWords true code.data)

/-- A provider with the prompts `login` and `consent`. -/
def env : Env :=
  { interactions := [login, consent]
    cookiesShort := [("httpOnly", .bool true), ("maxAge", .number 600000)]
    interactionUrl := fun _ s => .ok ("/interaction/" ++ s.uid)
    errors := fun c => c = "LoginRequired" || c = "ConsentRequired"
    upperFirstCamelCase := capitalizedWords
    urlFor := fun route _ => "/auth/" ++ route
    pathname := fun u => .string u
    cookieName := fun n => "_" ++ n
    save := fun _ => .ok ()
    next := .ok () }

/-- The same provider, its short-lived cookie options having a `path` entry. -/
def envWithPath : Env :=
  { env with cookiesShort := [("maxAge", .number 600000), ("path", .string "/")] }

/-- A session of the end-user `bob` with an empty acr and an empty list of amr values. -/
def bobSession : Session :=
  { accountId := some "bob"
    uid := some "s-2"
    jti := none
    acr := some ""
    amr := some [] }

/-- A request of `bob` that was granted nothing. -/
def bobNoScope : Ctx :=
  { anonymous with session := bobSession, acceptedScope := none }

/-- The decision of the `login` prompt for an anonymous request. -/
def loginDecision : PromptDecision :=
  { name := "login"
    reasons := ["no_session"]
    details := [] }

/-- The primary failure of the `login` prompt for an anonymous request. -/
def loginFailedCheck : FailedCheck :=
  { error := "login_required"
    error_description := "End-User authentication is required" }

/-- The decision of the `consent` prompt for a request that was granted nothing. -/
def consentDecision : PromptDecision :=
  { name := "consent"
    reasons := ["scopes_missing"]
    details := [("client", .string "c1"), ("scopes", .string "openid")] }

/-- The primary failure of the `consent` prompt for a request that was granted nothing. -/
def consentFailedCheck : FailedCheck :=
  { error := "consent_required"
    error_description := "requested scopes not granted by End-User" }

/-- A provider whose interaction store rejects. -/
def envStoreDown : Env :=
  { env with save := fun _ => .error { thrown := .external "store unavailable" } }

/-- A provider whose destination resolver rejects. -/
def envResolverDown : Env :=
  { env with interactionUrl := fun _ _ => .error { thrown := .external "no destination" } }

/-- A check whose predicate rejects. -/
def brokenCheck : Check :=
  { reason := "broken"
    description := none
    error := none
    details := fun _ => .ok []
    check := fun _ => .error { thrown := .external "predicate failed" } }

/-- A prompt whose first check rejects and whose second is `no_session`. -/
def brokenPrompt : Prompt :=
  { name := "login"
    checks := [brokenCheck, noSessionCheck]
    details := fun _ => .ok [] }

/-- Both closures of `consent` settle, the second one first. -/
def sched : Nat → List Nat := fun _ => [1, 0]

/-- Both closures of `consent` settle, in order. -/
def schedInOrder : Nat → List Nat := fun _ => [0, 1]

end Examples

end OidcProvider

/-! ## Facts about objects -/

namespace OidcProvider

namespace JsObject

variable {α : Type}

theorem get?_nil (k : String) : get? ([] : JsObject α) k = none := rfl

theorem get?_cons (p : String × α) (o : JsObject α) (k : String) :
    get? (p :: o) k = if p.1 = k then some p.2 else get? o k := by
  unfold get?
  by_cases h : p.1 = k <;> simp [List.find?_cons, h]

theorem has_eq_false_iff (o : JsObject α) (k : String) :
    o.has k = false ↔ ∀ p ∈ o, p.1 ≠ k := by
  unfold has
  simp [List.any_eq_false]

theorem get?_eq_none_of_has_false (o : JsObject α) (k : String) (h : o.has k = false) :
    o.get? k = none := by
  induction o with
  | nil => rfl
  | cons p o ih =>
    rw [has_eq_false_iff] at h ih
    rw [get?_cons]
    have hp : p.1 ≠ k := h p (List.mem_cons_self _ _)
    rw [if_neg hp]
    exact ih (fun q hq => h q (List.mem_cons_of_mem _ hq))

theorem has_iff_get?_isSome (o : JsObject α) (k : String) :
    o.has k = (o.get? k).isSome := by
  induction o with
  | nil => rfl
  | cons p o ih =>
    rw [get?_cons]
    by_cases h : p.1 = k
    · simp [has, h]
    · rw [if_neg h, ← ih]; simp [has, h]

theorem get?_replace (o : JsObject α) (k k2 : String) (v : α) (h : o.has k = true) :
    get? (o.map (fun p => if p.1 = k then (k, v) else p)) k2 =
      if k2 = k then some v else o.get? k2 := by
  induction o with
  | nil => simp [has] at h
  | cons p o ih =>
    rw [List.map_cons, get?_cons, get?_cons]
    by_cases hp : p.1 = k
    · simp only [hp, if_true]
      by_cases hk : k2 = k
      · simp [hk]
      · have : ¬ k = k2 := fun e => hk e.symm
        simp only [this, hk, if_false]
        by_cases ho : has o k = true
        · rw [ih ho, if_neg hk]
        · have ho2 : has o k = false := by simpa using ho
          have hid : o.map (fun p => if p.1 = k then (k, v) else p) = o := by
            rw [has_eq_false_iff] at ho2
            conv_rhs => rw [← List.map_id o]
            apply List.map_congr_left
            intro q hq
            simp [ho2 q hq]
          rw [hid]
    · simp only [hp, if_false]
      have ho : has o k = true := by
        simp only [has, List.any_cons, Bool.or_eq_true, decide_eq_true_eq] at h
        rcases h with h | h
        · exact absurd h hp
        · simpa [has] using h
      rw [ih ho]
      by_cases hk : k2 = k
      · subst hk
        simp [hp]
      · simp [hk]

theorem get?_insertIndex (o : JsObject α) (n : Nat) (k k2 : String) (v : α)
    (h : o.has k = false) :
    get? (insertIndex n k v o) k2 = if k2 = k then some v else o.get? k2 := by
  induction o with
  | nil =>
    simp only [insertIndex, get?_cons, get?_nil]
    by_cases hk : k2 = k
    · simp [hk]
    · have : ¬ k = k2 := fun e => hk e.symm
      simp [hk, this]
  | cons p o ih =>
    have hp : p.1 ≠ k := (has_eq_false_iff _ _).1 h p (List.mem_cons_self _ _)
    have ho : has o k = false :=
      (has_eq_false_iff _ _).2 (fun q hq => (has_eq_false_iff _ _).1 h q (List.mem_cons_of_mem _ hq))
    have hhead : get? ((k, v) :: p :: o) k2 = if k2 = k then some v else get? (p :: o) k2 := by
      rw [get?_cons]
      by_cases hk : k2 = k
      · simp [hk]
      · have : ¬ k = k2 := fun e => hk e.symm
        simp [hk, this]
    unfold insertIndex
    split
    · split
      · exact hhead
      · rw [get?_cons, ih ho, get?_cons]
        by_cases hk : k2 = k
        · subst hk
          simp [hp]
        · simp [hk]
    · exact hhead

theorem get?_append_single (o : JsObject α) (k k2 : String) (v : α)
    (h : o.has k = false) :
    get? (o ++ [(k, v)]) k2 = if k2 = k then some v else o.get? k2 := by
  induction o with
  | nil =>
    simp only [List.nil_append, get?_cons, get?_nil]
    by_cases hk : k2 = k
    · simp [hk]
    · have : ¬ k = k2 := fun e => hk e.symm
      simp [hk, this]
  | cons p o ih =>
    have hp : p.1 ≠ k := (has_eq_false_iff _ _).1 h p (List.mem_cons_self _ _)
    have ho : has o k = false :=
      (has_eq_false_iff _ _).2 (fun q hq => (has_eq_false_iff _ _).1 h q (List.mem_cons_of_mem _ hq))
    rw [List.cons_append, get?_cons, ih ho, get?_cons]
    by_cases hk : k2 = k
    · subst hk
      simp [hp]
    · simp [hk]

theorem get?_define (o : JsObject α) (k k2 : String) (v : α) :
    get? (o.define k v) k2 = if k2 = k then some v else o.get? k2 := by
  unfold define
  by_cases h : o.has k = true
  · rw [if_pos h]; exact get?_replace o k k2 v h
  · have h2 : o.has k = false := by simpa using h
    rw [if_neg h]
    split
    · exact get?_insertIndex o _ k k2 v h2
    · exact get?_append_single o k k2 v h2

theorem get?_set_of_ne (o : JsObject α) (k k2 : String) (v : α) (h : k2 ≠ "__proto__") :
    get? (o.set k v) k2 = if k2 = k then some v else o.get? k2 := by
  unfold set
  split
  · rename_i hk
    have : ¬ k2 = k := fun e => h (e.trans hk.1)
    rw [if_neg this]
  · exact get?_define o k k2 v

theorem set_eq_define (o : JsObject α) (k : String) (v : α) (h : k ≠ "__proto__") :
    o.set k v = o.define k v := by
  unfold set
  rw [if_neg (fun hk => h hk.1)]

theorem has_set_proto (o : JsObject α) (k : String) (v : α)
    (h : o.has "__proto__" = false) : (o.set k v).has "__proto__" = false := by
  unfold set
  split
  · exact h
  · rename_i hk
    have hne : k ≠ "__proto__" := by
      intro e
      exact hk ⟨e, e ▸ h⟩
    rw [has_iff_get?_isSome, get?_define, if_neg (fun e => hne e.symm),
      ← has_iff_get?_isSome, h]

end JsObject

end OidcProvider

namespace OidcProvider

namespace JsObject

variable {α : Type}

theorem has_define_self (o : JsObject α) (k : String) (v : α) :
    (o.define k v).has k = true := by
  rw [has_iff_get?_isSome, get?_define]; simp

theorem get?_spread (t s : JsObject α) (k : String) (hs : WellFormed s) :
    (spread t s).get? k = match s.get? k with
      | some v => some v
      | none => t.get? k := by
  induction s generalizing t with
  | nil => rfl
  | cons p s ih =>
    have hnd : p.1 ∉ s.map Prod.fst ∧ (s.map Prod.fst).Nodup := by
      simpa [WellFormed] using hs
    have hstep : spread t (p :: s) = spread (t.define p.1 p.2) s := rfl
    rw [hstep, ih _ hnd.2, get?_cons, get?_define]
    by_cases hk : p.1 = k
    · subst hk
      have hnone : get? s p.1 = none := by
        apply get?_eq_none_of_has_false
        rw [has_eq_false_iff]
        intro q hq heq
        exact hnd.1 (heq ▸ List.mem_map_of_mem Prod.fst hq)
      simp [hnone]
    · have hk2 : ¬ k = p.1 := fun e => hk e.symm
      simp [hk, hk2]

theorem get?_assignOne (t s : JsObject α) (k : String) (hs : WellFormed s)
    (hk : k ≠ "__proto__") :
    (assignOne t s).get? k = match s.get? k with
      | some v => some v
      | none => t.get? k := by
  induction s generalizing t with
  | nil => rfl
  | cons p s ih =>
    have hnd : p.1 ∉ s.map Prod.fst ∧ (s.map Prod.fst).Nodup := by
      simpa [WellFormed] using hs
    have hstep : assignOne t (p :: s) = assignOne (t.set p.1 p.2) s := rfl
    rw [hstep, ih _ hnd.2, get?_cons, get?_set_of_ne _ _ _ _ hk]
    by_cases hpk : p.1 = k
    · subst hpk
      have hnone : get? s p.1 = none := by
        apply get?_eq_none_of_has_false
        rw [has_eq_false_iff]
        intro q hq heq
        exact hnd.1 (heq ▸ List.mem_map_of_mem Prod.fst hq)
      simp [hnone]
    · have hk2 : ¬ k = p.1 := fun e => hpk e.symm
      simp [hpk, hk2]

theorem has_assignOne_proto (t s : JsObject α) (h : t.has "__proto__" = false) :
    (assignOne t s).has "__proto__" = false := by
  induction s generalizing t with
  | nil => exact h
  | cons p s ih => exact ih _ (has_set_proto t p.1 p.2 h)

theorem has_assign_proto (t : JsObject α) (sources : List (JsObject α))
    (h : t.has "__proto__" = false) : (assign t sources).has "__proto__" = false := by
  induction sources generalizing t with
  | nil => exact h
  | cons s rest ih => exact ih _ (has_assignOne_proto t s h)

theorem get?_assign (t : JsObject α) (sources : List (JsObject α)) (k : String)
    (hs : ∀ s ∈ sources, WellFormed s) (hk : k ≠ "__proto__") :
    (assign t sources).get? k = match lastDefined sources k with
      | some v => some v
      | none => t.get? k := by
  induction sources generalizing t with
  | nil => rfl
  | cons s rest ih =>
    have hstep : assign t (s :: rest) = assign (assignOne t s) rest := rfl
    rw [hstep, ih _ (fun x hx => hs x (List.mem_cons_of_mem _ hx)),
      get?_assignOne _ _ _ (hs s (List.mem_cons_self _ _)) hk]
    simp only [lastDefined]
    cases lastDefined rest k <;> rfl

/-- Objects with one property each, under distinct keys that are neither array indices
nor `__proto__`, are merged into the list of those properties. -/
theorem assign_singletons (acc : JsObject α) (pairs : List (String × α))
    (hnd : (pairs.map Prod.fst).Nodup)
    (hidx : ∀ p ∈ pairs, arrayIndex? p.1 = none)
    (hproto : ∀ p ∈ pairs, p.1 ≠ "__proto__")
    (hacc : ∀ p ∈ pairs, acc.has p.1 = false) :
    assign acc (pairs.map (fun p => [p])) = acc ++ pairs := by
  induction pairs generalizing acc with
  | nil => simp [assign]
  | cons p rest ih =>
    have hnd2 : p.1 ∉ rest.map Prod.fst ∧ (rest.map Prod.fst).Nodup := by simpa using hnd
    have hstep : assign acc (List.map (fun p => [p]) (p :: rest)) =
        assign (acc.set p.1 p.2) (rest.map (fun p => [p])) := rfl
    have hset : acc.set p.1 p.2 = acc ++ [p] := by
      rw [set_eq_define _ _ _ (hproto p (List.mem_cons_self _ _))]
      unfold define
      rw [hacc p (List.mem_cons_self _ _), hidx p (List.mem_cons_self _ _)]
      rfl
    rw [hstep, hset, ih _ hnd2.2 (fun q hq => hidx q (List.mem_cons_of_mem _ hq))
      (fun q hq => hproto q (List.mem_cons_of_mem _ hq))]
    · simp
    · intro q hq
      rw [has_eq_false_iff]
      intro x hx
      rcases List.mem_append.1 hx with hx | hx
      · exact (has_eq_false_iff _ _).1 (hacc q (List.mem_cons_of_mem _ hq)) x hx
      · have : x = p := by simpa using hx
        subst this
        intro heq
        exact hnd2.1 (heq ▸ List.mem_map_of_mem Prod.fst hq)

end JsObject

theorem lastDefined_eq_some_iff {α : Type} (cs : List (JsObject α)) (k : String) (v : α) :
    lastDefined cs k = some v ↔
      ∃ before c after, cs = before ++ c :: after ∧ c.get? k = some v ∧
        ∀ x ∈ after, x.get? k = none := by
  induction cs with
  | nil => simp [lastDefined]
  | cons c rest ih =>
    simp only [lastDefined]
    constructor
    · intro h
      cases hr : lastDefined rest k with
      | some w =>
        rw [hr] at h
        have hw : w = v := by simpa using h
        subst hw
        obtain ⟨b, x, a, hx, hget, hafter⟩ := ih.1 hr
        exact ⟨c :: b, x, a, by rw [hx]; rfl, hget, hafter⟩
      | none =>
        rw [hr] at h
        refine ⟨[], c, rest, rfl, h, ?_⟩
        intro x hx
        by_contra hne
        obtain ⟨w, hw⟩ := Option.ne_none_iff_exists'.1 hne
        have key : ∀ (l : List (JsObject α)), x ∈ l → lastDefined l k ≠ none := by
          intro l
          induction l with
          | nil => intro hmem; cases hmem
          | cons y l ihl =>
            intro hmem
            simp only [lastDefined]
            cases hl : lastDefined l k with
            | some _ => simp
            | none =>
              rcases List.mem_cons.1 hmem with hxy | hxl
              · subst hxy; simp [hw]
              · exact absurd hl (ihl hxl)
        exact key rest hx hr
    · rintro ⟨b, x, a, hx, hget, hafter⟩
      cases b with
      | nil =>
        simp only [List.nil_append, List.cons.injEq] at hx
        obtain ⟨hcx, hra⟩ := hx
        subst hcx; subst hra
        have hnone : lastDefined rest k = none := by
          clear ih
          induction rest with
          | nil => rfl
          | cons y l ihl =>
            simp only [lastDefined]
            rw [ihl (fun z hz => hafter z (List.mem_cons_of_mem _ hz))]
            exact hafter y (List.mem_cons_self _ _)
        rw [hnone]; exact hget
      | cons y b =>
        simp only [List.cons_append, List.cons.injEq] at hx
        obtain ⟨_, hrest⟩ := hx
        rw [ih.2 ⟨b, x, a, hrest, hget, hafter⟩]

theorem lastDefined_eq_none_iff {α : Type} (cs : List (JsObject α)) (k : String) :
    lastDefined cs k = none ↔ ∀ c ∈ cs, c.get? k = none := by
  induction cs with
  | nil => simp [lastDefined]
  | cons c rest ih =>
    simp only [lastDefined, List.mem_cons, forall_eq_or_imp]
    cases hr : lastDefined rest k with
    | some w =>
      constructor
      · intro h; cases h
      · rintro ⟨_, hall⟩
        rw [ih.2 hall] at hr
        cases hr
    | none =>
      have hall := ih.1 hr
      constructor
      · intro h; exact ⟨h, hall⟩
      · intro h; exact h.1

end OidcProvider

/-! ## Facts about the awaited closures -/

namespace OidcProvider

theorem slots_eq_map_some {α : Type} (slots : List (Option α))
    (h : slots.all Option.isSome = true) : slots = (slots.filterMap id).map some := by
  induction slots with
  | nil => rfl
  | cons s rest ih =>
    simp only [List.all_cons, Bool.and_eq_true] at h
    cases s with
    | none => simp at h
    | some v =>
      simp only [List.filterMap_cons, id, List.map_cons]
      rw [← ih h.2]

theorem settle_of_ok {α : Type} (vs : List α) (order : List Nat) (slots : List (Option α))
    (hlen : slots.length = vs.length)
    (hinv : ∀ i, slots[i]? = (vs[i]?).map some ∨ (slots[i]? = some none ∧ i ∈ order)) :
    settle (vs.map Except.ok) order slots = .fulfilled vs := by
  induction order generalizing slots with
  | nil =>
    have hs : slots = vs.map some := by
      apply List.ext_getElem?
      intro i
      rcases hinv i with h | ⟨_, h⟩
      · rw [h, List.getElem?_map]
      · cases h
    subst hs
    simp [settle]
  | cons i order ih =>
    unfold settle
    by_cases hi : i < vs.length
    · have ht : (vs.map (Except.ok : α → Except Failure α))[i]? = some (.ok vs[i]) := by
        rw [List.getElem?_map, List.getElem?_eq_getElem hi]; rfl
      rw [ht]
      apply ih
      · rw [List.length_set]; exact hlen
      · intro j
        by_cases hij : i = j
        · subst hij
          left
          rw [List.getElem?_set, if_pos rfl, if_pos (hlen ▸ hi), List.getElem?_eq_getElem hi]
          rfl
        · rw [List.getElem?_set_ne hij]
          rcases hinv j with h | ⟨h, hmem⟩
          · exact Or.inl h
          · right
            refine ⟨h, ?_⟩
            rcases List.mem_cons.1 hmem with e | e
            · exact absurd e.symm hij
            · exact e
    · have ht : (vs.map (Except.ok : α → Except Failure α))[i]? = none := by
        apply List.getElem?_eq_none
        rw [List.length_map]
        omega
      rw [ht]
      apply ih _ hlen
      intro j
      rcases hinv j with h | ⟨h, hmem⟩
      · exact Or.inl h
      · right
        refine ⟨h, ?_⟩
        rcases List.mem_cons.1 hmem with e | e
        · exfalso
          subst e
          have hj : j < slots.length := by
            by_contra hge
            rw [List.getElem?_eq_none (by omega)] at h
            cases h
          omega
        · exact e

theorem promiseAll_of_ok {α : Type} (vs : List α) (order : List Nat)
    (hs : Settles order vs.length) :
    promiseAll (vs.map (Except.ok : α → Except Failure α)) order = .fulfilled vs := by
  unfold promiseAll
  apply settle_of_ok
  · simp
  · intro i
    rw [List.length_map, List.getElem?_replicate]
    by_cases hi : i < vs.length
    · right
      rw [if_pos hi]
      exact ⟨rfl, hs i hi⟩
    · left
      rw [if_neg hi, List.getElem?_eq_none (by omega)]
      rfl

theorem tasks_of_settle {α : Type} (tasks : List (Except Failure α)) (order : List Nat)
    (slots : List (Option α)) (vs : List α)
    (hlen : slots.length = tasks.length)
    (hinv : ∀ (i : Nat) (v : α), slots[i]? = some (some v) → tasks[i]? = some (Except.ok v))
    (h : settle tasks order slots = .fulfilled vs) : tasks = vs.map Except.ok := by
  induction order generalizing slots with
  | nil =>
    unfold settle at h
    split at h
    · rename_i hall
      have hvs : slots.filterMap id = vs := by
        injection h
      have hslots := slots_eq_map_some slots hall
      rw [hvs] at hslots
      subst hslots
      apply List.ext_getElem?
      intro i
      rw [List.getElem?_map]
      cases hv : vs[i]? with
      | none =>
        apply List.getElem?_eq_none
        have := List.getElem?_eq_none_iff.1 hv
        rw [← hlen, List.length_map]
        exact this
      | some v =>
        show tasks[i]? = some (Except.ok v)
        apply hinv i v
        rw [List.getElem?_map, hv]
        rfl
    · cases h
  | cons i order ih =>
    unfold settle at h
    split at h
    · exact ih slots hlen hinv h
    · cases h
    · rename_i v ht
      apply ih (slots.set i (some v)) _ _ h
      · rw [List.length_set]; exact hlen
      · intro j w hj
        by_cases hij : i = j
        · subst hij
          rw [List.getElem?_set, if_pos rfl] at hj
          split at hj
          · have : v = w := by simpa using hj
            subst this
            exact ht
          · cases hj
        · rw [List.getElem?_set_ne hij] at hj
          exact hinv j w hj

theorem tasks_of_promiseAll {α : Type} (tasks : List (Except Failure α)) (order : List Nat)
    (vs : List α) (h : promiseAll tasks order = .fulfilled vs) : tasks = vs.map Except.ok := by
  unfold promiseAll at h
  apply tasks_of_settle tasks order _ vs _ _ h
  · simp
  · intro i v hi
    rw [List.getElem?_replicate] at hi
    split at hi
    · cases hi
    · cases hi

end OidcProvider

/-! ## Facts about the evaluation of one prompt -/

namespace OidcProvider

theorem checkTask_eq_ok_none_iff (ctx : Ctx) (c : Check) :
    checkTask ctx c = .ok none ↔ c.check ctx = .ok false := by
  unfold checkTask
  constructor
  · intro h
    split at h
    · cases h
    · assumption
    · split at h <;> cases h
  · intro h
    rw [h]

theorem holds_eq_false_of_check (ctx : Ctx) (c : Check) (h : c.check ctx = .ok false) :
    holds ctx c = false := by
  unfold holds; rw [h]

theorem holds_eq_true_iff (ctx : Ctx) (c : Check) :
    holds ctx c = true ↔ c.check ctx = .ok true := by
  unfold holds
  constructor
  · intro h
    split at h
    · assumption
    · cases h
  · intro h; rw [h]

theorem exists_ok_of_isOk {α : Type} (x : Except Failure α) (h : x.isOk = true) :
    ∃ a, x = .ok a := by
  cases x with
  | error f => cases h
  | ok a => exact ⟨a, rfl⟩

theorem checkTask_of_returns (ctx : Ctx) (c : Check)
    (hb : ∃ b, c.check ctx = .ok b)
    (hd : c.check ctx = .ok true → ∃ d, c.details ctx = .ok d) :
    checkTask ctx c = .ok (if holds ctx c then some [failureEntry ctx c] else none) := by
  obtain ⟨b, hb⟩ := hb
  cases b with
  | false =>
    rw [holds_eq_false_of_check ctx c hb]
    exact (checkTask_eq_ok_none_iff ctx c).2 hb
  | true =>
    obtain ⟨d, hd⟩ := hd hb
    rw [(holds_eq_true_iff ctx c).2 hb]
    unfold checkTask failureEntry detailsOf
    rw [hb, hd]
    rfl

theorem filterMap_ite_some {α β : Type} (l : List α) (p : α → Bool) (f : α → β) :
    (l.map (fun a => if p a then some (f a) else none)).filterMap id = (l.filter p).map f := by
  induction l with
  | nil => rfl
  | cons a l ih =>
    cases hp : p a <;> simp [List.filter_cons, hp, ih]

/-- When no predicate of the prompt is true the loop body selects nothing; conversely the
body selects nothing only when every predicate returned false. -/
theorem evalPrompt_none_of_all_false (ctx : Ctx) (p : Nat) (pr : Prompt) (order : List Nat)
    (hs : Settles order pr.checks.length)
    (h : ∀ c ∈ pr.checks, c.check ctx = .ok false) :
    (evalPrompt ctx p pr order).result = .fulfilled none := by
  have htasks : pr.checks.map (checkTask ctx) =
      (pr.checks.map (fun _ => (none : Option (JsObject CheckFailure)))).map Except.ok := by
    rw [List.map_map]
    apply List.map_congr_left
    intro c hc
    exact (checkTask_eq_ok_none_iff ctx c).2 (h c hc)
  unfold evalPrompt
  rw [htasks, promiseAll_of_ok _ _ (by simpa using hs)]
  simp

theorem all_false_of_evalPrompt_none (ctx : Ctx) (p : Nat) (pr : Prompt) (order : List Nat)
    (h : (evalPrompt ctx p pr order).result = .fulfilled none) :
    ∀ c ∈ pr.checks, c.check ctx = .ok false := by
  unfold evalPrompt at h
  split at h
  · cases h
  · cases h
  · rename_i slots hp
    have htasks := tasks_of_promiseAll _ _ _ hp
    simp only at h
    split at h
    · exfalso
      split at h
      · cases h
      · rename_i hne pd hpd
        simp only [buildDecision] at h
        split at h
        · cases h
        · cases h
    · rename_i hlen
      have hnil : slots.filterMap id = [] := by
        have : (slots.filterMap id).length = 0 := by simpa using hlen
        exact List.length_eq_zero.1 this
      rw [List.filterMap_eq_nil_iff] at hnil
      intro c hc
      rw [← checkTask_eq_ok_none_iff]
      have hmem : checkTask ctx c ∈ slots.map Except.ok := by
        rw [← htasks]; exact List.mem_map_of_mem _ hc
      obtain ⟨s, hs, hsc⟩ := List.mem_map.1 hmem
      have := hnil s hs
      simp only [id] at this
      rw [← hsc, this]

theorem evalPrompt_found (ctx : Ctx) (p : Nat) (pr : Prompt) (order : List Nat)
    (pd : JsObject JsValue)
    (hs : Settles order pr.checks.length)
    (hb : ∀ c ∈ pr.checks, ∃ b, c.check ctx = .ok b)
    (hd : ∀ c ∈ pr.checks, c.check ctx = .ok true → ∃ d, c.details ctx = .ok d)
    (hpd : pr.details ctx = .ok pd)
    (hsome : ∃ c ∈ pr.checks, c.check ctx = .ok true) :
    (evalPrompt ctx p pr order).result =
      buildDecision pr.name (failedChecksObject ctx pr) pd := by
  have htasks : pr.checks.map (checkTask ctx) =
      (pr.checks.map (fun c => if holds ctx c then some [failureEntry ctx c] else none)).map
        Except.ok := by
    rw [List.map_map]
    apply List.map_congr_left
    intro c hc
    exact checkTask_of_returns ctx c (hb c hc) (hd c hc)
  have hne : (List.filter (holds ctx) pr.checks).length ≠ 0 := by
    obtain ⟨c, hc, hct⟩ := hsome
    have : c ∈ List.filter (holds ctx) pr.checks :=
      List.mem_filter.2 ⟨hc, (holds_eq_true_iff ctx c).2 hct⟩
    intro h0
    rw [List.length_eq_zero.1 h0] at this
    cases this
  unfold evalPrompt
  rw [htasks, promiseAll_of_ok _ _ (by simpa using hs)]
  simp only [filterMap_ite_some, List.length_map]
  rw [if_pos hne, hpd]
  rfl

end OidcProvider

/-! ## Facts about the loop over the prompts -/

namespace OidcProvider

theorem resolvePrompts_cons_of_none (ctx : Ctx) (sched : Nat → List Nat) (p : Nat)
    (pr : Prompt) (rest : List Prompt)
    (h : (evalPrompt ctx p pr (sched p)).result = .fulfilled none) :
    (resolvePrompts ctx sched p (pr :: rest)).result =
      (resolvePrompts ctx sched (p + 1) rest).result := by
  simp only [resolvePrompts, h]

theorem resolvePrompts_cons_of_some (ctx : Ctx) (sched : Nat → List Nat) (p : Nat)
    (pr : Prompt) (rest : List Prompt) (x : PromptDecision × FailedCheck)
    (h : (evalPrompt ctx p pr (sched p)).result = .fulfilled (some x)) :
    (resolvePrompts ctx sched p (pr :: rest)).result = .fulfilled (some x) := by
  simp only [resolvePrompts, h]

theorem resolvePrompts_cons_of_ne (ctx : Ctx) (sched : Nat → List Nat) (p : Nat)
    (pr : Prompt) (rest : List Prompt)
    (h : (evalPrompt ctx p pr (sched p)).result ≠ .fulfilled none) :
    (resolvePrompts ctx sched p (pr :: rest)).result =
      (evalPrompt ctx p pr (sched p)).result := by
  simp only [resolvePrompts]

theorem buildDecision_ne_none (name : String) (results : JsObject CheckFailure)
    (pd : JsObject JsValue) : buildDecision name results pd ≠ .fulfilled none := by
  unfold buildDecision
  split
  · intro h; cases h
  · intro h; cases h

theorem settlesAll_append (sched : Nat → List Nat) (p : Nat) (a b : List Prompt) :
    SettlesAll sched p (a ++ b) ↔ SettlesAll sched p a ∧ SettlesAll sched (p + a.length) b := by
  induction a generalizing p with
  | nil => simp [SettlesAll]
  | cons x a ih =>
    have hlen : p + (x :: a).length = p + 1 + a.length := by
      simp only [List.length_cons]; omega
    rw [List.cons_append, hlen]
    show (Settles (sched p) x.checks.length ∧ SettlesAll sched (p + 1) (a ++ b)) ↔
      (Settles (sched p) x.checks.length ∧ SettlesAll sched (p + 1) a) ∧
        SettlesAll sched (p + 1 + a.length) b
    rw [ih (p + 1), and_assoc]

theorem resolvePrompts_skip (ctx : Ctx) (sched : Nat → List Nat) (p : Nat)
    (before rest : List Prompt)
    (hs : SettlesAll sched p before)
    (h : ∀ q ∈ before, ∀ c ∈ q.checks, c.check ctx = .ok false) :
    (resolvePrompts ctx sched p (before ++ rest)).result =
      (resolvePrompts ctx sched (p + before.length) rest).result := by
  induction before generalizing p with
  | nil => rfl
  | cons q before ih =>
    rw [List.cons_append, resolvePrompts_cons_of_none ctx sched p q _
      (evalPrompt_none_of_all_false ctx p q _ hs.1 (h q (List.mem_cons_self _ _))),
      ih (p + 1) hs.2 (fun x hx => h x (List.mem_cons_of_mem _ hx))]
    have : p + 1 + before.length = p + (q :: before).length := by
      simp only [List.length_cons]; omega
    rw [this]

theorem resolvePrompts_none_iff (ctx : Ctx) (sched : Nat → List Nat) (p : Nat)
    (prompts : List Prompt) (hs : SettlesAll sched p prompts) :
    (resolvePrompts ctx sched p prompts).result = .fulfilled none ↔
      ∀ pr ∈ prompts, ∀ c ∈ pr.checks, c.check ctx = .ok false := by
  induction prompts generalizing p with
  | nil => simp [resolvePrompts]
  | cons pr rest ih =>
    constructor
    · intro h
      have hhead : (evalPrompt ctx p pr (sched p)).result = .fulfilled none := by
        simp only [resolvePrompts] at h
        split at h
        · assumption
        · rename_i hne
          simp only at h
          exact absurd h (hne)
      rw [resolvePrompts_cons_of_none ctx sched p pr rest hhead] at h
      intro q hq
      rcases List.mem_cons.1 hq with e | e
      · subst e
        exact all_false_of_evalPrompt_none ctx p q _ hhead
      · exact (ih (p + 1) hs.2).1 h q e
    · intro h
      rw [resolvePrompts_cons_of_none ctx sched p pr rest
        (evalPrompt_none_of_all_false ctx p pr _ hs.1 (h pr (List.mem_cons_self _ _)))]
      exact (ih (p + 1) hs.2).2 (fun q hq => h q (List.mem_cons_of_mem _ hq))

/-! ## Facts about the trace of the resolution -/

theorem settleEvents_calls (ctx : Ctx) (p : Nat) (checks : List Check) (order : List Nat) :
    ∀ e ∈ settleEvents ctx p checks order, e.isResolverCall = true := by
  induction order with
  | nil => intro e he; cases he
  | cons i order ih =>
    intro e he
    unfold settleEvents at he
    split at he
    · exact ih e he
    · split at he
      · cases he
      · exact ih e he
      · split at he
        · have : e = Event.checkDetailsCalled p i := by simpa using he
          subst this; rfl
        · rcases List.mem_cons.1 he with h | h
          · subst h; rfl
          · exact ih e h

theorem evalPrompt_calls (ctx : Ctx) (p : Nat) (pr : Prompt) (order : List Nat) :
    ∀ e ∈ (evalPrompt ctx p pr order).trace, e.isResolverCall = true := by
  have hcalled : ∀ e ∈ (List.range pr.checks.length).map (Event.checkCalled p) ++
      settleEvents ctx p pr.checks order, e.isResolverCall = true := by
    intro e he
    rcases List.mem_append.1 he with h | h
    · obtain ⟨i, _, hi⟩ := List.mem_map.1 h
      subst hi; rfl
    · exact settleEvents_calls ctx p pr.checks order e h
  have hmore : ∀ e ∈ ((List.range pr.checks.length).map (Event.checkCalled p) ++
      settleEvents ctx p pr.checks order) ++ [Event.promptDetailsCalled p],
      e.isResolverCall = true := by
    intro e he
    rcases List.mem_append.1 he with h | h
    · exact hcalled e h
    · have : e = Event.promptDetailsCalled p := by simpa using h
      subst this; rfl
  unfold evalPrompt
  simp only
  split
  · exact hcalled
  · exact hcalled
  · split
    · split
      · exact hmore
      · exact hmore
    · exact hcalled

theorem resolvePrompts_calls (ctx : Ctx) (sched : Nat → List Nat) (p : Nat)
    (prompts : List Prompt) :
    ∀ e ∈ (resolvePrompts ctx sched p prompts).trace, e.isResolverCall = true := by
  induction prompts generalizing p with
  | nil => intro e he; cases he
  | cons pr rest ih =>
    intro e he
    simp only [resolvePrompts] at he
    split at he
    · rcases List.mem_append.1 he with h | h
      · exact evalPrompt_calls ctx p pr _ e h
      · exact ih (p + 1) e h
    · exact evalPrompt_calls ctx p pr _ e he

theorem filter_effects_of_calls (l : List Event)
    (h : ∀ e ∈ l, e.isResolverCall = true) :
    l.filter (fun e => !e.isResolverCall) = [] := by
  rw [List.filter_eq_nil_iff]
  intro e he
  simp [h e he]

end OidcProvider

/-! ## Facts about the selected prompt -/

namespace OidcProvider

theorem resolvePrompts_found (ctx : Ctx) (sched : Nat → List Nat)
    (before : List Prompt) (pr : Prompt) (after : List Prompt) (pd : JsObject JsValue)
    (hbefore : ∀ q ∈ before, ∀ c ∈ q.checks, c.check ctx = .ok false)
    (htrue : ∃ c ∈ pr.checks, c.check ctx = .ok true)
    (hb : ∀ c ∈ pr.checks, ∃ b, c.check ctx = .ok b)
    (hd : ∀ c ∈ pr.checks, c.check ctx = .ok true → ∃ d, c.details ctx = .ok d)
    (hpd : pr.details ctx = .ok pd)
    (hs : SettlesAll sched 0 (before ++ [pr])) :
    (resolvePrompts ctx sched 0 (before ++ pr :: after)).result =
      buildDecision pr.name (failedChecksObject ctx pr) pd := by
  rw [settlesAll_append] at hs
  have hev := evalPrompt_found ctx (0 + before.length) pr (sched (0 + before.length)) pd
    hs.2.1 hb hd hpd htrue
  rw [resolvePrompts_skip ctx sched 0 before _ hs.1 hbefore,
    resolvePrompts_cons_of_ne ctx sched _ pr after
      (by rw [hev]; exact buildDecision_ne_none _ _ _),
    hev]

theorem resolvePrompts_found_of_returns (ctx : Ctx) (sched : Nat → List Nat)
    (before : List Prompt) (pr : Prompt) (after : List Prompt)
    (hbefore : ∀ q ∈ before, ∀ c ∈ q.checks, c.check ctx = .ok false)
    (htrue : ∃ c ∈ pr.checks, c.check ctx = .ok true)
    (hret : Returns ctx pr)
    (hs : SettlesAll sched 0 (before ++ [pr])) :
    ∃ pd, pr.details ctx = .ok pd ∧
      (resolvePrompts ctx sched 0 (before ++ pr :: after)).result =
        buildDecision pr.name (failedChecksObject ctx pr) pd := by
  obtain ⟨hb, hd, hpd⟩ := hret
  obtain ⟨pd, hpd⟩ := exists_ok_of_isOk _ hpd
  exact ⟨pd, hpd, resolvePrompts_found ctx sched before pr after pd hbefore htrue
    (fun c hc => exists_ok_of_isOk _ (hb c hc))
    (fun c hc ht => exists_ok_of_isOk _ (hd c hc ht)) hpd hs⟩

theorem failedChecksObject_ne_nil (ctx : Ctx) (pr : Prompt)
    (htrue : ∃ c ∈ pr.checks, c.check ctx = .ok true ∧ c.reason ≠ "__proto__") :
    failedChecksObject ctx pr ≠ [] := by
  obtain ⟨c, hc, hct, hproto⟩ := htrue
  have hmem : c ∈ failingChecks ctx pr :=
    List.mem_filter.2 ⟨hc, (holds_eq_true_iff ctx c).2 hct⟩
  intro hnil
  have hget : (failedChecksObject ctx pr).get? c.reason = none := by rw [hnil]; rfl
  unfold failedChecksObject at hget
  rw [JsObject.get?_assign _ _ _ _ hproto] at hget
  · have hlast : lastDefined ((failingChecks ctx pr).map (fun c => [failureEntry ctx c]))
        c.reason = none := by
      cases hl : lastDefined ((failingChecks ctx pr).map (fun c => [failureEntry ctx c]))
        c.reason with
      | none => rfl
      | some v => rw [hl] at hget; cases hget
    have := (lastDefined_eq_none_iff _ _).1 hlast [failureEntry ctx c]
      (List.mem_map_of_mem _ hmem)
    simp [JsObject.get?, failureEntry] at this
  · intro s hs
    obtain ⟨x, _, hx⟩ := List.mem_map.1 hs
    subst hx
    simp [JsObject.WellFormed]

theorem failedChecksObject_eq (ctx : Ctx) (pr : Prompt)
    (hdistinct : (pr.checks.map Check.reason).Nodup)
    (hindex : ∀ c ∈ pr.checks, arrayIndex? c.reason = none)
    (hproto : ∀ c ∈ pr.checks, c.reason ≠ "__proto__") :
    failedChecksObject ctx pr = (failingChecks ctx pr).map (failureEntry ctx) := by
  have hmap : (failingChecks ctx pr).map (fun c => [failureEntry ctx c]) =
      ((failingChecks ctx pr).map (failureEntry ctx)).map (fun e => [e]) := by
    rw [List.map_map]; rfl
  unfold failedChecksObject
  rw [hmap, JsObject.assign_singletons]
  · rfl
  · rw [List.map_map]
    exact List.Nodup.sublist ((List.filter_sublist pr.checks).map _) hdistinct
  · intro e he
    obtain ⟨c, hc, hce⟩ := List.mem_map.1 he
    subst hce
    exact hindex c (List.mem_filter.1 hc).1
  · intro e he
    obtain ⟨c, hc, hce⟩ := List.mem_map.1 he
    subst hce
    exact hproto c (List.mem_filter.1 hc).1
  · intro e _
    rfl

theorem head?_filter_eq_find? {α : Type} (p : α → Bool) (l : List α) :
    (l.filter p).head? = l.find? p := by
  induction l with
  | nil => rfl
  | cons a l ih =>
    cases hp : p a <;> simp [List.filter_cons, List.find?_cons, hp, ih]

theorem orElse_of_some (v : Option String) (d e : String) (h : v = some e) (hne : e ≠ "") :
    orElse v d = e := by
  subst h; simp [orElse, hne]

theorem orElse_of_none (v : Option String) (d : String) (h : v = none ∨ v = some "") :
    orElse v d = d := by
  rcases h with h | h <;> subst h <;> simp [orElse]

end OidcProvider

/-! ## Facts about the route test and the cookie options -/

namespace OidcProvider

theorem isPrefixOf_data_iff (pre s : String) :
    pre.data.isPrefixOf s.data = true ↔ ∃ rest, s = pre ++ rest := by
  rw [List.isPrefixOf_iff_prefix]
  constructor
  · rintro ⟨t, ht⟩
    refine ⟨String.mk t, ?_⟩
    apply String.ext
    rw [String.data_append, ← ht]
  · rintro ⟨rest, hrest⟩
    refine ⟨rest.data, ?_⟩
    rw [hrest, String.data_append]

theorem codeOrDeviceRoute_iff (route : String) :
    codeOrDeviceRoute route = true ↔
      ∃ rest, route = "code_" ++ rest ∨ route = "device_" ++ rest := by
  unfold codeOrDeviceRoute
  rw [Bool.or_eq_true, isPrefixOf_data_iff, isPrefixOf_data_iff]
  constructor
  · rintro (⟨r, h⟩ | ⟨r, h⟩)
    · exact ⟨r, Or.inl h⟩
    · exact ⟨r, Or.inr h⟩
  · rintro ⟨r, h | h⟩
    · exact Or.inl ⟨r, h⟩
    · exact Or.inr ⟨r, h⟩

theorem get?_interactionCookieOptions (env : Env) (destination k : String)
    (hwf : env.cookiesShort.WellFormed) :
    (interactionCookieOptions env destination).get? k =
      match env.cookiesShort.get? k with
      | some v => some v
      | none => if k = "path" then some (env.pathname destination) else none := by
  unfold interactionCookieOptions
  rw [JsObject.get?_spread _ _ _ hwf, JsObject.get?_define, JsObject.get?_nil]
  cases env.cookiesShort.get? k <;> rfl

theorem get?_resumeCookieOptions (env : Env) (returnTo k : String)
    (hwf : env.cookiesShort.WellFormed) :
    (resumeCookieOptions env returnTo).get? k =
      if k = "path" then some (env.pathname returnTo) else env.cookiesShort.get? k := by
  unfold resumeCookieOptions
  rw [JsObject.get?_define, JsObject.get?_spread _ _ _ hwf]
  cases env.cookiesShort.get? k <;> rfl

theorem filter_setCookie_of_calls (l : List Event)
    (h : ∀ e ∈ l, e.isResolverCall = true) :
    l.filter Event.isSetCookie = [] := by
  rw [List.filter_eq_nil_iff]
  intro e he
  have := h e he
  cases e <;> simp_all [Event.isResolverCall, Event.isSetCookie]

end OidcProvider

/-! ## Properties of the resolution -/

namespace OidcProvider

/-- C1, as stated, fails: a prompt whose only check has the reason `__proto__` and a
true predicate is not selected. `Object.assign` assigns the result of the check to
`__proto__`, which defines no property, and the destructuring of the first entry of
the empty merged object throws a `TypeError`. -/
theorem proto_reason_not_selected :
    (∃ c ∈ Examples.protoPrompt.checks, c.check Examples.anonymous = .ok true) ∧
      (resolvePrompts Examples.anonymous Examples.schedInOrder 0
        [Examples.protoPrompt]).result = .rejected { thrown := .typeError } ∧
      (interactions { Examples.env with interactions := [Examples.protoPrompt] }
        Examples.schedInOrder "resume" Examples.anonymous).outcome =
        .threw { thrown := .typeError } := by
  decide

/-- C1, amended. The prompt decision the loop produces bears the name of the first
configured prompt that has a check whose predicate is true, provided one of the true
checks of that prompt has a reason other than `__proto__`, and the result is the same for
every order in which the checks settle: the prompts before it have only false predicates,
the collaborators of the selected prompt return, and in both runs every check settles. -/
theorem resolvePrompts_selects_first_prompt (ctx : Ctx) (sched sched2 : Nat → List Nat)
    (before : List Prompt) (pr : Prompt) (after : List Prompt)
    (hbefore : ∀ q ∈ before, ∀ c ∈ q.checks, c.check ctx = .ok false)
    (htrue : ∃ c ∈ pr.checks, c.check ctx = .ok true ∧ c.reason ≠ "__proto__")
    (hret : Returns ctx pr)
    (hs : SettlesAll sched 0 (before ++ [pr]))
    (hs2 : SettlesAll sched2 0 (before ++ [pr])) :
    ∃ d f,
      (resolvePrompts ctx sched 0 (before ++ pr :: after)).result = .fulfilled (some (d, f)) ∧
      d.name = pr.name ∧
      (resolvePrompts ctx sched2 0 (before ++ pr :: after)).result =
        .fulfilled (some (d, f)) := by
  have htrue2 : ∃ c ∈ pr.checks, c.check ctx = .ok true := by
    obtain ⟨c, hc, hct, _⟩ := htrue
    exact ⟨c, hc, hct⟩
  obtain ⟨pd, _, hres⟩ :=
    resolvePrompts_found_of_returns ctx sched before pr after hbefore htrue2 hret hs
  obtain ⟨pd2, _, hres2⟩ :=
    resolvePrompts_found_of_returns ctx sched2 before pr after hbefore htrue2 hret hs2
  have hpd : pd2 = pd := by
    rename_i h1 h2
    rw [h1] at h2
    injection h2 with h
    exact h.symm
  subst hpd
  have hne := failedChecksObject_ne_nil ctx pr htrue
  rw [hres, hres2]
  unfold buildDecision
  cases hobj : failedChecksObject ctx pr with
  | nil => exact absurd hobj hne
  | cons e rest => exact ⟨_, _, rfl, rfl, rfl⟩

/-- C1 at a signed-in request without a grant: `login` has no true check, `consent`
has one, and `consent` is selected whichever of its two checks settles first. -/
theorem resolvePrompts_selects_first_prompt_witness :
    (∀ q ∈ [Examples.login], ∀ c ∈ q.checks,
        c.check Examples.signedInNoScope = .ok false) ∧
      ∃ d f,
        (resolvePrompts Examples.signedInNoScope Examples.sched 0
            ([Examples.login] ++ Examples.consent :: [])).result = .fulfilled (some (d, f)) ∧
          d.name = Examples.consent.name ∧
          (resolvePrompts Examples.signedInNoScope Examples.schedInOrder 0
            ([Examples.login] ++ Examples.consent :: [])).result = .fulfilled (some (d, f)) :=
  ⟨by decide,
    resolvePrompts_selects_first_prompt Examples.signedInNoScope Examples.sched
      Examples.schedInOrder [Examples.login] Examples.consent []
      (by decide) (by decide)
      (by decide)
      ⟨by decide, by decide, trivial⟩
      ⟨by decide, by decide, trivial⟩⟩

/-- C5. The loop selects no prompt exactly when every check predicate of every
configured prompt returns false (every check being given the time to settle). -/
theorem resolvePrompts_exhausted_iff (ctx : Ctx) (sched : Nat → List Nat)
    (prompts : List Prompt) (hs : SettlesAll sched 0 prompts) :
    (resolvePrompts ctx sched 0 prompts).result = .fulfilled none ↔
      ∀ pr ∈ prompts, ∀ c ∈ pr.checks, c.check ctx = .ok false :=
  resolvePrompts_none_iff ctx sched 0 prompts hs

/-- C5 at a signed-in request that was granted `openid`: every check is false and no
prompt is selected. -/
theorem resolvePrompts_exhausted_iff_witness :
    SettlesAll Examples.sched 0 Examples.env.interactions ∧
      ((resolvePrompts Examples.signedIn Examples.sched 0 Examples.env.interactions).result =
          .fulfilled none ↔
        ∀ pr ∈ Examples.env.interactions, ∀ c ∈ pr.checks,
          c.check Examples.signedIn = .ok false) :=
  ⟨⟨by decide, by decide, trivial⟩,
    resolvePrompts_exhausted_iff Examples.signedIn Examples.sched Examples.env.interactions
      ⟨by decide, by decide, trivial⟩⟩

/-- C6. When no prompt is selected: without a (truthy) account id the middleware throws
`AccessDenied`, with one but without a (truthy) accepted scope it throws `AccessDenied`,
in both cases without calling `next` and without emitting `authorization.accepted`; and
it fails before handing over to the next stage exactly when one of the two holds, which,
the next stage succeeding, are the only failures. -/
theorem interactions_guard_denies (env : Env) (sched : Nat → List Nat)
    (resumeRouteName : String) (ctx : Ctx)
    (hnone : (resolvePrompts ctx sched 0 env.interactions).result = .fulfilled none) :
    (truthy ctx.session.accountId = false →
      (interactions env sched resumeRouteName ctx).outcome =
          .threw { thrown := .accessDenied noAccountMessage } ∧
        Event.next ∉ (interactions env sched resumeRouteName ctx).trace ∧
        ∀ payload, Event.emit "authorization.accepted" payload ∉
          (interactions env sched resumeRouteName ctx).trace) ∧
    (truthy ctx.acceptedScope = false →
      (∃ description, (interactions env sched resumeRouteName ctx).outcome =
          .threw { thrown := .accessDenied description }) ∧
        Event.next ∉ (interactions env sched resumeRouteName ctx).trace ∧
        ∀ payload, Event.emit "authorization.accepted" payload ∉
          (interactions env sched resumeRouteName ctx).trace) ∧
    (((∃ f, (interactions env sched resumeRouteName ctx).outcome = .threw f) ∧
        Event.next ∉ (interactions env sched resumeRouteName ctx).trace) ↔
      (truthy ctx.session.accountId = false ∨ truthy ctx.acceptedScope = false)) ∧
    (env.next = .ok () →
      ((∃ f, (interactions env sched resumeRouteName ctx).outcome = .threw f) ↔
        (truthy ctx.session.accountId = false ∨ truthy ctx.acceptedScope = false))) := by
  have hcalls := resolvePrompts_calls ctx sched 0 env.interactions
  have hnext : Event.next ∉ (resolvePrompts ctx sched 0 env.interactions).trace :=
    fun h => by have := hcalls _ h; cases this
  have hemit : ∀ payload, Event.emit "authorization.accepted" payload ∉
      (resolvePrompts ctx sched 0 env.interactions).trace :=
    fun payload h => by have := hcalls _ h; cases this
  cases ha : truthy ctx.session.accountId <;> cases hsc : truthy ctx.acceptedScope <;>
    cases hn : env.next <;>
    simp [interactions, hnone, ha, hsc, hn, hnext, hemit]

/-- C6 at a request whose checks are all false and whose session has no account id. -/
theorem interactions_guard_denies_witness :
    (resolvePrompts { Examples.anonymous with promptNone := false } Examples.sched 0
        { Examples.env with interactions := [Examples.consent] }.interactions).result =
        .fulfilled none ∧
      (interactions { Examples.env with interactions := [Examples.consent] } Examples.sched
          "resume" Examples.anonymous).outcome =
        .threw { thrown := .accessDenied noAccountMessage } :=
  ⟨by decide,
    ((interactions_guard_denies { Examples.env with interactions := [Examples.consent] }
      Examples.sched "resume" Examples.anonymous (by decide)).1 (by decide)).1⟩

/-- C7. When no prompt is selected, the account id is truthy and the accepted scope is
truthy, the effects of the middleware other than the calls of the check predicates are,
in this order, the debug line, one `authorization.accepted` event and one call of `next`:
no session is saved, no cookie is set, nothing is redirected; the run ends as the next
stage ends. -/
theorem interactions_guard_accepts (env : Env) (sched : Nat → List Nat)
    (resumeRouteName : String) (ctx : Ctx)
    (hnone : (resolvePrompts ctx sched 0 env.interactions).result = .fulfilled none)
    (haccount : truthy ctx.session.accountId = true)
    (hscope : truthy ctx.acceptedScope = true) :
    (interactions env sched resumeRouteName ctx).trace.filter (fun e => !e.isResolverCall) =
        [ Event.debug "oidc-provider:authentication:accepted",
          Event.emit "authorization.accepted" none,
          Event.next ] ∧
      (interactions env sched resumeRouteName ctx).outcome =
        (match env.next with
          | .ok _ => Outcome.returned
          | .error f => Outcome.threw f) := by
  have hcalls := filter_effects_of_calls _ (resolvePrompts_calls ctx sched 0 env.interactions)
  cases hn : env.next <;>
    simp only [interactions, hnone, haccount, hscope, hn, Bool.not_true, Bool.false_eq_true,
      if_false, List.filter_append, hcalls, List.nil_append] <;>
    exact ⟨rfl, trivial⟩

/-- C7 at a signed-in request that was granted `openid`. -/
theorem interactions_guard_accepts_witness :
    (interactions Examples.env Examples.sched "resume" Examples.signedIn).trace.filter
        (fun e => !e.isResolverCall) =
        [ Event.debug "oidc-provider:authentication:accepted",
          Event.emit "authorization.accepted" none,
          Event.next ] ∧
      (interactions Examples.env Examples.sched "resume" Examples.signedIn).outcome =
        Outcome.returned :=
  interactions_guard_accepts Examples.env Examples.sched "resume" Examples.signedIn
    (by decide) (by decide) (by decide)

end OidcProvider

/-! ## Properties of the selected prompt decision -/

namespace OidcProvider

/-- C2, as stated, fails: a prompt whose two checks have the distinct reasons `step_up`
and `1`, both predicates true, yields the reasons `1`, `step_up`, whereas the configured
order of the checks is `step_up`, `1`. -/
theorem reasons_array_index_first :
    (Examples.numbered.checks.map Check.reason).Nodup ∧
      (decisionOf (resolvePrompts Examples.anonymous Examples.schedInOrder 0
          [Examples.numbered]).result).map PromptDecision.reasons = some ["1", "step_up"] ∧
      (failingChecks Examples.anonymous Examples.numbered).map Check.reason =
        ["step_up", "1"] := by
  decide

/-- C2, amended. For the selected prompt, its checks having pairwise distinct reasons
none of which is an array index or `__proto__`, the reasons of the decision are the reasons of exactly
the checks whose predicate is true, in the configured order of the checks. -/
theorem reasons_in_configured_order (ctx : Ctx) (sched : Nat → List Nat)
    (before : List Prompt) (pr : Prompt) (after : List Prompt)
    (hdistinct : (pr.checks.map Check.reason).Nodup)
    (hindex : ∀ c ∈ pr.checks, arrayIndex? c.reason = none)
    (hproto : ∀ c ∈ pr.checks, c.reason ≠ "__proto__")
    (hbefore : ∀ q ∈ before, ∀ c ∈ q.checks, c.check ctx = .ok false)
    (htrue : ∃ c ∈ pr.checks, c.check ctx = .ok true)
    (hret : Returns ctx pr)
    (hs : SettlesAll sched 0 (before ++ [pr])) :
    ∃ d f,
      (resolvePrompts ctx sched 0 (before ++ pr :: after)).result = .fulfilled (some (d, f)) ∧
      d.reasons = (pr.checks.filter (fun c => c.check ctx = .ok true)).map Check.reason := by
  obtain ⟨pd, _, hres⟩ :=
    resolvePrompts_found_of_returns ctx sched before pr after hbefore htrue hret hs
  have hfilter : pr.checks.filter (fun c => c.check ctx = .ok true) = failingChecks ctx pr := by
    unfold failingChecks
    apply List.filter_congr
    intro c _
    by_cases h : c.check ctx = .ok true
    · simp [h, (holds_eq_true_iff ctx c).2 h]
    · have : holds ctx c = false := by
        cases hh : holds ctx c with
        | false => rfl
        | true => exact absurd ((holds_eq_true_iff ctx c).1 hh) h
      simp [h, this]
  have hobj := failedChecksObject_eq ctx pr hdistinct hindex hproto
  obtain ⟨c, hc, hct⟩ := htrue
  have hmem : c ∈ failingChecks ctx pr :=
    List.mem_filter.2 ⟨hc, (holds_eq_true_iff ctx c).2 hct⟩
  rw [hres, hobj, hfilter]
  cases hf : failingChecks ctx pr with
  | nil => rw [hf] at hmem; cases hmem
  | cons c0 rest =>
    refine ⟨_, _, rfl, ?_⟩
    simp [JsObject.keys, failureEntry, Function.comp_def]

/-- C2, amended, at a signed-in request without a grant: the reasons of `consent`. -/
theorem reasons_in_configured_order_witness :
    ∃ d f,
      (resolvePrompts Examples.signedInNoScope Examples.sched 0
          ([Examples.login] ++ Examples.consent :: [])).result = .fulfilled (some (d, f)) ∧
        d.reasons = (Examples.consent.checks.filter
          (fun c => c.check Examples.signedInNoScope = .ok true)).map Check.reason :=
  reasons_in_configured_order Examples.signedInNoScope Examples.sched [Examples.login]
    Examples.consent [] (by decide) (by decide) (by decide) (by decide) (by decide)
    (by decide) ⟨by decide, by decide, trivial⟩

/-- C3, as stated, fails: with the reasons `step_up` and `1`, both predicates true, the
primary failure carries the error code of the second check, `consent_required`, not
that of the first check in configured order, `login_required`. -/
theorem primary_failure_array_index_first :
    (failedCheckOf (resolvePrompts Examples.anonymous Examples.schedInOrder 0
        [Examples.numbered]).result).map FailedCheck.error = some "consent_required" ∧
      (Examples.numbered.checks.find? (fun c => c.check Examples.anonymous = .ok true)).map
        Check.error = some (some "login_required") := by
  decide

/-- C3, amended. For the selected prompt, its checks having pairwise distinct reasons
none of which is an array index or `__proto__`, the primary failure comes from the first check in
configured order whose predicate is true: its error is the error code of that check, or
`interaction_required` when the check has none (or an empty one); its error_description
is the description of that check, or `interaction is required from the end-user` when
the check has none (or an empty one). -/
theorem primary_failure_first_failing_check (ctx : Ctx) (sched : Nat → List Nat)
    (before : List Prompt) (pr : Prompt) (after : List Prompt)
    (hdistinct : (pr.checks.map Check.reason).Nodup)
    (hindex : ∀ c ∈ pr.checks, arrayIndex? c.reason = none)
    (hproto : ∀ c ∈ pr.checks, c.reason ≠ "__proto__")
    (hbefore : ∀ q ∈ before, ∀ c ∈ q.checks, c.check ctx = .ok false)
    (htrue : ∃ c ∈ pr.checks, c.check ctx = .ok true)
    (hret : Returns ctx pr)
    (hs : SettlesAll sched 0 (before ++ [pr])) :
    ∃ d f c,
      (resolvePrompts ctx sched 0 (before ++ pr :: after)).result = .fulfilled (some (d, f)) ∧
      pr.checks.find? (fun c => c.check ctx = .ok true) = some c ∧
      (∀ e, c.error = some e → e ≠ "" → f.error = e) ∧
      (c.error = none ∨ c.error = some "" → f.error = "interaction_required") ∧
      (∀ t, c.description = some t → t ≠ "" → f.error_description = t) ∧
      (c.description = none ∨ c.description = some "" →
        f.error_description = "interaction is required from the end-user") := by
  obtain ⟨pd, _, hres⟩ :=
    resolvePrompts_found_of_returns ctx sched before pr after hbefore htrue hret hs
  have hfind : pr.checks.find? (fun c => c.check ctx = .ok true) =
      (failingChecks ctx pr).head? := by
    rw [failingChecks, head?_filter_eq_find?]
    congr 1
    funext c
    by_cases h : c.check ctx = .ok true
    · simp [h, (holds_eq_true_iff ctx c).2 h]
    · have : holds ctx c = false := by
        cases hh : holds ctx c with
        | false => rfl
        | true => exact absurd ((holds_eq_true_iff ctx c).1 hh) h
      simp [h, this]
  have hobj := failedChecksObject_eq ctx pr hdistinct hindex hproto
  obtain ⟨c, hc, hct⟩ := htrue
  have hmem : c ∈ failingChecks ctx pr :=
    List.mem_filter.2 ⟨hc, (holds_eq_true_iff ctx c).2 hct⟩
  rw [hres, hobj, hfind]
  cases hf : failingChecks ctx pr with
  | nil => rw [hf] at hmem; cases hmem
  | cons c0 rest =>
    refine ⟨_, _, c0, rfl, rfl, ?_, ?_, ?_, ?_⟩
    · intro e he hne; exact orElse_of_some _ _ _ he hne
    · intro h; exact orElse_of_none _ _ h
    · intro t ht hne; exact orElse_of_some _ _ _ ht hne
    · intro h; exact orElse_of_none _ _ h

/-- C3, amended, at a signed-in request without a grant: the primary failure of `consent`. -/
theorem primary_failure_first_failing_check_witness :
    ∃ d f c,
      (resolvePrompts Examples.signedInNoScope Examples.sched 0
          ([Examples.login] ++ Examples.consent :: [])).result = .fulfilled (some (d, f)) ∧
      Examples.consent.checks.find?
          (fun c => c.check Examples.signedInNoScope = .ok true) = some c ∧
      (∀ e, c.error = some e → e ≠ "" → f.error = e) ∧
      (c.error = none ∨ c.error = some "" → f.error = "interaction_required") ∧
      (∀ t, c.description = some t → t ≠ "" → f.error_description = t) ∧
      (c.description = none ∨ c.description = some "" →
        f.error_description = "interaction is required from the end-user") :=
  primary_failure_first_failing_check Examples.signedInNoScope Examples.sched
    [Examples.login] Examples.consent [] (by decide) (by decide) (by decide) (by decide)
    (by decide) (by decide) ⟨by decide, by decide, trivial⟩

end OidcProvider

namespace OidcProvider

/-- C4, as stated, fails: with the reasons `step_up` and `1`, both predicates true and
both details defining `level`, the decision has the `level` of `step_up`, the first check,
whereas the last contributor in configured order is the check `1`. -/
theorem details_array_index_first :
    ((decisionOf (resolvePrompts Examples.anonymous Examples.schedInOrder 0
        [Examples.numbered]).result).map (fun d => d.details.get? "level")) =
        some (some (JsValue.number 1)) ∧
      lastDefined (contributors Examples.anonymous Examples.numbered []) "level" =
        some (JsValue.number 2) := by
  decide

/-- C4, amended. For the selected prompt, its checks having pairwise distinct reasons
none of which is an array index or `__proto__`, the details of the decision are the
left-to-right merge of the mapping of the prompt followed by the details of each check
whose predicate is true in configured order: a key other than `__proto__` has the value
the last contributor defining it gives it, and is present exactly when some contributor
defines it. -/
theorem details_merged_in_configured_order (ctx : Ctx) (sched : Nat → List Nat)
    (before : List Prompt) (pr : Prompt) (after : List Prompt) (pd : JsObject JsValue)
    (hdistinct : (pr.checks.map Check.reason).Nodup)
    (hindex : ∀ c ∈ pr.checks, arrayIndex? c.reason = none)
    (hproto : ∀ c ∈ pr.checks, c.reason ≠ "__proto__")
    (hbefore : ∀ q ∈ before, ∀ c ∈ q.checks, c.check ctx = .ok false)
    (htrue : ∃ c ∈ pr.checks, c.check ctx = .ok true)
    (hret : Returns ctx pr)
    (hpd : pr.details ctx = .ok pd)
    (hwf : pd.WellFormed ∧ ∀ c ∈ pr.checks, (detailsOf ctx c).WellFormed)
    (hs : SettlesAll sched 0 (before ++ [pr])) :
    ∃ d f,
      (resolvePrompts ctx sched 0 (before ++ pr :: after)).result = .fulfilled (some (d, f)) ∧
      (∀ k v, k ≠ "__proto__" → (d.details.get? k = some v ↔
        ∃ earlier c later, contributors ctx pr pd = earlier ++ c :: later ∧
          c.get? k = some v ∧ ∀ x ∈ later, x.get? k = none)) ∧
      (∀ k, k ≠ "__proto__" →
        (d.details.has k = true ↔ ∃ c ∈ contributors ctx pr pd, c.has k = true)) := by
  obtain ⟨pd2, hpd2, hres⟩ :=
    resolvePrompts_found_of_returns ctx sched before pr after hbefore htrue hret hs
  have hpdeq : pd2 = pd := by
    rw [hpd] at hpd2
    injection hpd2 with h
    exact h.symm
  subst hpdeq
  have hobj := failedChecksObject_eq ctx pr hdistinct hindex hproto
  obtain ⟨c, hc, hct⟩ := htrue
  have hmem : c ∈ failingChecks ctx pr :=
    List.mem_filter.2 ⟨hc, (holds_eq_true_iff ctx c).2 hct⟩
  have hvalues : (JsObject.values ((failingChecks ctx pr).map (failureEntry ctx))).map
      (fun r => r.details) = (failingChecks ctx pr).map (detailsOf ctx) := by
    simp [JsObject.values, failureEntry, Function.comp_def]
  have hwfall : ∀ s ∈ contributors ctx pr pd2, JsObject.WellFormed s := by
    intro s hsm
    rcases List.mem_cons.1 hsm with e | e
    · subst e; exact hwf.1
    · obtain ⟨x, hx, hxs⟩ := List.mem_map.1 e
      subst hxs
      exact hwf.2 x (List.mem_filter.1 hx).1
  have hget : ∀ k, k ≠ "__proto__" → (JsObject.assign [] (contributors ctx pr pd2)).get? k =
      lastDefined (contributors ctx pr pd2) k := by
    intro k hk
    rw [JsObject.get?_assign _ _ _ hwfall hk]
    cases lastDefined (contributors ctx pr pd2) k <;> rfl
  rw [hres, hobj]
  cases hf : failingChecks ctx pr with
  | nil => rw [hf] at hmem; cases hmem
  | cons c0 rest =>
    rw [← hf]
    have hshape : buildDecision pr.name ((failingChecks ctx pr).map (failureEntry ctx)) pd2 =
        .fulfilled (some
          ({ name := pr.name
             reasons := JsObject.keys ((failingChecks ctx pr).map (failureEntry ctx))
             details := JsObject.assign [] (contributors ctx pr pd2) },
           { error := orElse c0.error "interaction_required"
             error_description :=
              orElse c0.description "interaction is required from the end-user" })) := by
      unfold buildDecision contributors
      rw [hvalues, hf]
      rfl
    refine ⟨_, _, hshape, ?_, ?_⟩
    · intro k v hk
      show (JsObject.assign [] (contributors ctx pr pd2)).get? k = some v ↔ _
      rw [hget k hk, lastDefined_eq_some_iff]
    · intro k hk
      show (JsObject.assign [] (contributors ctx pr pd2)).has k = true ↔ _
      rw [JsObject.has_iff_get?_isSome, hget k hk]
      constructor
      · intro h
        by_contra hno
        have hnone : lastDefined (contributors ctx pr pd2) k = none := by
          rw [lastDefined_eq_none_iff]
          intro x hx
          apply JsObject.get?_eq_none_of_has_false
          cases hh : JsObject.has x k with
          | false => rfl
          | true => exact absurd ⟨x, hx, hh⟩ hno
        rw [hnone] at h
        cases h
      · rintro ⟨x, hx, hh⟩
        cases hl : lastDefined (contributors ctx pr pd2) k with
        | some v => rfl
        | none =>
          have := (lastDefined_eq_none_iff _ _).1 hl x hx
          rw [JsObject.has_iff_get?_isSome, this] at hh
          cases hh

/-- C4, amended, at a signed-in request without a grant: the details of `consent`. -/
theorem details_merged_in_configured_order_witness :
    ∃ d f,
      (resolvePrompts Examples.signedInNoScope Examples.sched 0
          ([Examples.login] ++ Examples.consent :: [])).result = .fulfilled (some (d, f)) ∧
      (∀ k v, k ≠ "__proto__" → (d.details.get? k = some v ↔
        ∃ earlier c later,
          contributors Examples.signedInNoScope Examples.consent
              [("client", JsValue.string "c1")] = earlier ++ c :: later ∧
            c.get? k = some v ∧ ∀ x ∈ later, x.get? k = none)) ∧
      (∀ k, k ≠ "__proto__" → (d.details.has k = true ↔
        ∃ c ∈ contributors Examples.signedInNoScope Examples.consent
          [("client", JsValue.string "c1")], c.has k = true)) :=
  details_merged_in_configured_order Examples.signedInNoScope Examples.sched
    [Examples.login] Examples.consent [] [("client", JsValue.string "c1")]
    (by decide) (by decide) (by decide) (by decide) (by decide) (by decide) rfl
    ⟨by decide, by decide⟩ ⟨by decide, by decide, trivial⟩

end OidcProvider

/-! ## Properties of the silent mode -/

namespace OidcProvider

/-- C8. When a prompt is selected and `prompt=none` is pending, the middleware throws a
failure whose `status` and `statusCode` are 400 exactly when the route begins with `code_`
or `device_` and 302 otherwise, and whose `expose` is true, be the thrown value an
instance of a class of the registry or the generic error of `ctx.throw`. -/
theorem silent_failure_status (env : Env) (sched : Nat → List Nat)
    (resumeRouteName : String) (ctx : Ctx) (d : PromptDecision) (f : FailedCheck)
    (hfound : (resolvePrompts ctx sched 0 env.interactions).result = .fulfilled (some (d, f)))
    (hsilent : ctx.promptNone = true) :
    ∃ failure,
      (interactions env sched resumeRouteName ctx).outcome = .threw failure ∧
      failure.expose = some true ∧
      failure.statusCode = failure.status ∧
      (failure.status = some 400 ↔
        ∃ rest, ctx.route = "code_" ++ rest ∨ ctx.route = "device_" ++ rest) ∧
      ((¬ ∃ rest, ctx.route = "code_" ++ rest ∨ ctx.route = "device_" ++ rest) →
        failure.status = some 302) ∧
      (failure.thrown = silentThrown env f) := by
  refine ⟨silentCatch ctx (silentThrown env f), ?_, rfl, rfl, ?_, ?_, rfl⟩
  · simp only [interactions, hfound, hsilent, if_true]
  · rw [← codeOrDeviceRoute_iff]
    unfold silentCatch
    cases codeOrDeviceRoute ctx.route <;> simp
  · rw [← codeOrDeviceRoute_iff]
    unfold silentCatch
    cases codeOrDeviceRoute ctx.route <;> simp

/-- C8 at an anonymous `prompt=none` request on the route `device_authorization`: the
status is 400. -/
theorem silent_failure_status_witness :
    Examples.silentDevice.route = "device_authorization" ∧
      ∃ failure,
        (interactions Examples.env Examples.sched "resume" Examples.silentDevice).outcome =
          .threw failure ∧
        failure.expose = some true ∧
        failure.statusCode = failure.status ∧
        (failure.status = some 400 ↔
          ∃ rest, Examples.silentDevice.route = "code_" ++ rest ∨
            Examples.silentDevice.route = "device_" ++ rest) ∧
        ((¬ ∃ rest, Examples.silentDevice.route = "code_" ++ rest ∨
            Examples.silentDevice.route = "device_" ++ rest) →
          failure.status = some 302) ∧
        (failure.thrown = silentThrown Examples.env
          { error := "login_required"
            error_description := "End-User authentication is required" }) :=
  ⟨rfl, silent_failure_status Examples.env Examples.sched "resume" Examples.silentDevice
    { name := "login", reasons := ["no_session"], details := [] }
    { error := "login_required", error_description := "End-User authentication is required" }
    (by decide) rfl⟩

/-- C9. When a prompt is selected and `prompt=none` is pending, the thrown value is
determined by the error code of the primary failure: when the registry has a class under
the capitalized camel-case form of the code, an instance of that class made from the
description of the primary failure; otherwise the generic error of `ctx.throw` whose
message is the code itself and whose error_description is that description. -/
theorem silent_failure_kind (env : Env) (sched : Nat → List Nat)
    (resumeRouteName : String) (ctx : Ctx) (d : PromptDecision) (f : FailedCheck)
    (hfound : (resolvePrompts ctx sched 0 env.interactions).result = .fulfilled (some (d, f)))
    (hsilent : ctx.promptNone = true) :
    (env.errors (env.upperFirstCamelCase f.error) = true →
      ∃ failure, (interactions env sched resumeRouteName ctx).outcome = .threw failure ∧
        failure.thrown =
          .registered (env.upperFirstCamelCase f.error) f.error_description) ∧
    (env.errors (env.upperFirstCamelCase f.error) = false →
      ∃ failure, (interactions env sched resumeRouteName ctx).outcome = .threw failure ∧
        failure.thrown = .http 400 f.error f.error_description) := by
  have hout : (interactions env sched resumeRouteName ctx).outcome =
      .threw (silentCatch ctx (silentThrown env f)) := by
    simp only [interactions, hfound, hsilent, if_true]
  constructor
  · intro h
    exact ⟨_, hout, by simp [silentCatch, silentThrown, h]⟩
  · intro h
    exact ⟨_, hout, by simp [silentCatch, silentThrown, h]⟩

/-- C9 at an anonymous `prompt=none` request: the code `login_required` of the check
`no_session` gives an instance of the class `LoginRequired`. -/
theorem silent_failure_kind_witness :
    Examples.capitalizedWords "login_required" = "LoginRequired" ∧
      ∃ failure,
        (interactions Examples.env Examples.sched "resume" Examples.silentDevice).outcome =
          .threw failure ∧
        failure.thrown = .registered "LoginRequired" "End-User authentication is required" :=
  ⟨by decide,
    (silent_failure_kind Examples.env Examples.sched "resume" Examples.silentDevice
      { name := "login", reasons := ["no_session"], details := [] }
      { error := "login_required", error_description := "End-User authentication is required" }
      (by decide) rfl).1 (by decide)⟩

end OidcProvider

/-! ## Properties of the cookies -/

namespace OidcProvider

/-- C10, as stated, fails: with short-lived cookie options that contain the entry
`path: "/"` and the destination `/interaction/u1`, the `interaction` cookie is set with
the path `/`, not with the path of the destination. -/
theorem interaction_cookie_path_overridden :
    (interactions Examples.envWithPath Examples.sched "resume" Examples.anonymous).trace.filter
        Event.isSetCookie =
        [ Event.setCookie "_interaction" "u1"
            [("path", JsValue.string "/"), ("maxAge", JsValue.number 600000)],
          Event.setCookie "_resume" "u1"
            [("maxAge", JsValue.number 600000), ("path", JsValue.string "/auth/resume")] ] ∧
      Event.redirect "/interaction/u1" ∈
        (interactions Examples.envWithPath Examples.sched "resume" Examples.anonymous).trace ∧
      Examples.envWithPath.pathname "/interaction/u1" = JsValue.string "/interaction/u1" := by
  decide

/-- C10, amended. For every cookie option bundle, the cookies set are the `interaction`
cookie and the `resume` cookie, both with the value uid. The path of the `interaction`
cookie is the path entry of the bundle when it has one, otherwise the path of the
destination; the path of the `resume` cookie is the path of returnTo, whatever the
bundle contains. Every other option of the bundle is on both cookies, unchanged, and
nothing else is. -/
theorem cookies_scoped_to_paths (env : Env) (sched : Nat → List Nat)
    (resumeRouteName : String) (ctx : Ctx) (d : PromptDecision) (f : FailedCheck)
    (destination : String)
    (hfound : (resolvePrompts ctx sched 0 env.interactions).result = .fulfilled (some (d, f)))
    (hinteractive : ctx.promptNone = false)
    (hsave : env.save (buildInteractionSession ctx
      (env.urlFor resumeRouteName (returnToParams ctx)) d) = .ok ())
    (hdest : env.interactionUrl ctx (buildInteractionSession ctx
      (env.urlFor resumeRouteName (returnToParams ctx)) d) = .ok destination)
    (hwf : env.cookiesShort.WellFormed) :
    ∃ interactionOptions resumeOptions,
      (interactions env sched resumeRouteName ctx).trace.filter Event.isSetCookie =
        [ Event.setCookie (env.cookieName "interaction") ctx.uid interactionOptions,
          Event.setCookie (env.cookieName "resume") ctx.uid resumeOptions ] ∧
      (∀ p, env.cookiesShort.get? "path" = some p → interactionOptions.get? "path" = some p) ∧
      (env.cookiesShort.get? "path" = none →
        interactionOptions.get? "path" = some (env.pathname destination)) ∧
      resumeOptions.get? "path" =
        some (env.pathname (env.urlFor resumeRouteName (returnToParams ctx))) ∧
      (∀ k, k ≠ "path" →
        interactionOptions.get? k = env.cookiesShort.get? k ∧
        resumeOptions.get? k = env.cookiesShort.get? k) := by
  have hcalls := filter_setCookie_of_calls _ (resolvePrompts_calls ctx sched 0 env.interactions)
  refine ⟨interactionCookieOptions env destination,
    resumeCookieOptions env (env.urlFor resumeRouteName (returnToParams ctx)), ?_, ?_, ?_, ?_, ?_⟩
  · simp only [interactions, hfound, hinteractive, startInteraction, hsave, hdest,
      Bool.false_eq_true, if_false, List.filter_append, hcalls, List.nil_append]
    rfl
  · intro p hp
    rw [get?_interactionCookieOptions env destination "path" hwf, hp]
  · intro hp
    rw [get?_interactionCookieOptions env destination "path" hwf, hp]
    rfl
  · rw [get?_resumeCookieOptions env _ "path" hwf]
    rfl
  · intro k hk
    constructor
    · rw [get?_interactionCookieOptions env destination k hwf, if_neg hk]
      cases env.cookiesShort.get? k <;> rfl
    · rw [get?_resumeCookieOptions env _ k hwf, if_neg hk]

/-- C10, amended, at an anonymous request: the paths of the two cookies. -/
theorem cookies_scoped_to_paths_witness :
    ∃ interactionOptions resumeOptions,
      (interactions Examples.env Examples.sched "resume" Examples.anonymous).trace.filter
          Event.isSetCookie =
        [ Event.setCookie (Examples.env.cookieName "interaction") Examples.anonymous.uid
            interactionOptions,
          Event.setCookie (Examples.env.cookieName "resume") Examples.anonymous.uid
            resumeOptions ] ∧
      (∀ p, Examples.env.cookiesShort.get? "path" = some p →
        interactionOptions.get? "path" = some p) ∧
      (Examples.env.cookiesShort.get? "path" = none →
        interactionOptions.get? "path" = some (Examples.env.pathname "/interaction/u1")) ∧
      resumeOptions.get? "path" =
        some (Examples.env.pathname
          (Examples.env.urlFor "resume" (returnToParams Examples.anonymous))) ∧
      (∀ k, k ≠ "path" →
        interactionOptions.get? k = Examples.env.cookiesShort.get? k ∧
        resumeOptions.get? k = Examples.env.cookiesShort.get? k) :=
  cookies_scoped_to_paths Examples.env Examples.sched "resume" Examples.anonymous
    { name := "login", reasons := ["no_session"], details := [] }
    { error := "login_required", error_description := "End-User authentication is required" }
    "/interaction/u1" (by decide) rfl rfl rfl (by decide)

end OidcProvider

/-! ## Facts about the runs of the middleware -/

namespace OidcProvider

theorem interactions_of_rejected (env : Env) (sched : Nat → List Nat)
    (resumeRouteName : String) (ctx : Ctx) (f : Failure)
    (h : (resolvePrompts ctx sched 0 env.interactions).result = .rejected f) :
    interactions env sched resumeRouteName ctx =
      ⟨(resolvePrompts ctx sched 0 env.interactions).trace, .threw f⟩ := by
  simp only [interactions, h]

theorem interactions_of_silent (env : Env) (sched : Nat → List Nat)
    (resumeRouteName : String) (ctx : Ctx) (d : PromptDecision) (f : FailedCheck)
    (hfound : (resolvePrompts ctx sched 0 env.interactions).result = .fulfilled (some (d, f)))
    (hsilent : ctx.promptNone = true) :
    interactions env sched resumeRouteName ctx =
      ⟨(resolvePrompts ctx sched 0 env.interactions).trace,
        .threw (silentCatch ctx (silentThrown env f))⟩ := by
  simp only [interactions, hfound, hsilent, if_true]

theorem interactions_of_interactive (env : Env) (sched : Nat → List Nat)
    (resumeRouteName : String) (ctx : Ctx) (d : PromptDecision) (f : FailedCheck)
    (hfound : (resolvePrompts ctx sched 0 env.interactions).result = .fulfilled (some (d, f)))
    (hinteractive : ctx.promptNone = false) :
    interactions env sched resumeRouteName ctx =
      startInteraction env resumeRouteName ctx d
        (resolvePrompts ctx sched 0 env.interactions).trace := by
  simp only [interactions, hfound, hinteractive, Bool.false_eq_true, if_false]

theorem startInteraction_of_save_error (env : Env) (resumeRouteName : String) (ctx : Ctx)
    (d : PromptDecision) (before : List Event) (f : Failure)
    (hsave : env.save (buildInteractionSession ctx
      (env.urlFor resumeRouteName (returnToParams ctx)) d) = .error f) :
    startInteraction env resumeRouteName ctx d before =
      ⟨before ++ [Event.save (buildInteractionSession ctx
          (env.urlFor resumeRouteName (returnToParams ctx)) d)
          (env.cookiesShort.get? "maxAge")], .threw f⟩ := by
  simp only [startInteraction, hsave]

theorem startInteraction_of_url_error (env : Env) (resumeRouteName : String) (ctx : Ctx)
    (d : PromptDecision) (before : List Event) (f : Failure)
    (hsave : env.save (buildInteractionSession ctx
      (env.urlFor resumeRouteName (returnToParams ctx)) d) = .ok ())
    (hdest : env.interactionUrl ctx (buildInteractionSession ctx
      (env.urlFor resumeRouteName (returnToParams ctx)) d) = .error f) :
    startInteraction env resumeRouteName ctx d before =
      ⟨before ++ [Event.save (buildInteractionSession ctx
          (env.urlFor resumeRouteName (returnToParams ctx)) d)
          (env.cookiesShort.get? "maxAge"),
        Event.interactionUrlCalled (buildInteractionSession ctx
          (env.urlFor resumeRouteName (returnToParams ctx)) d)], .threw f⟩ := by
  simp only [startInteraction, hsave, hdest, List.append_assoc, List.singleton_append]

theorem startInteraction_of_ok (env : Env) (resumeRouteName : String) (ctx : Ctx)
    (d : PromptDecision) (before : List Event) (destination : String)
    (hsave : env.save (buildInteractionSession ctx
      (env.urlFor resumeRouteName (returnToParams ctx)) d) = .ok ())
    (hdest : env.interactionUrl ctx (buildInteractionSession ctx
      (env.urlFor resumeRouteName (returnToParams ctx)) d) = .ok destination) :
    startInteraction env resumeRouteName ctx d before =
      ⟨before ++ [Event.save (buildInteractionSession ctx
          (env.urlFor resumeRouteName (returnToParams ctx)) d)
          (env.cookiesShort.get? "maxAge"),
        Event.interactionUrlCalled (buildInteractionSession ctx
          (env.urlFor resumeRouteName (returnToParams ctx)) d),
        Event.setCookie (env.cookieName "interaction") ctx.uid
          (interactionCookieOptions env destination),
        Event.setCookie (env.cookieName "resume") ctx.uid
          (resumeCookieOptions env (env.urlFor resumeRouteName (returnToParams ctx))),
        Event.debug "oidc-provider:authentication:interrupted",
        Event.emit "interaction.started" (some d),
        Event.redirect destination], .returned⟩ := by
  simp only [startInteraction, hsave, hdest, List.append_assoc, List.singleton_append,
    List.cons_append, List.nil_append]

theorem filter_of_calls (p : Event → Bool) (l : List Event)
    (hp : ∀ e, e.isResolverCall = true → p e = false)
    (h : ∀ e ∈ l, e.isResolverCall = true) :
    l.filter p = [] := by
  rw [List.filter_eq_nil_iff]
  intro e he
  rw [hp e (h e he)]
  simp

theorem savedFirst_of_calls (saved : Bool) (l tail : List Event)
    (h : ∀ e ∈ l, e.isResolverCall = true) :
    savedFirst saved (l ++ tail) = savedFirst saved tail := by
  induction l with
  | nil => rfl
  | cons e l ih =>
    have he := h e (List.mem_cons_self _ _)
    have ih2 := ih (fun x hx => h x (List.mem_cons_of_mem _ hx))
    cases e <;> simp_all [Event.isResolverCall, savedFirst]

theorem save_before_of_savedFirst (saved : Bool) (l : List Event)
    (h : savedFirst saved l = true) (earlier later : List Event) (e : Event)
    (hl : l = earlier ++ e :: later)
    (he : e.isInteractionUrlCall = true ∨ e.isSetCookie = true) :
    saved = true ∨ ∃ x ∈ earlier, x.isSave = true := by
  induction earlier generalizing saved l with
  | nil =>
    subst hl
    left
    cases e <;> simp_all [Event.isInteractionUrlCall, Event.isSetCookie, savedFirst]
  | cons x earlier ih =>
    subst hl
    cases x with
    | save s m =>
      right
      exact ⟨_, List.mem_cons_self _ _, rfl⟩
    | interactionUrlCalled s =>
      simp only [List.cons_append, savedFirst, Bool.and_eq_true] at h
      rcases ih saved _ h.2 rfl with h1 | ⟨y, hy, hys⟩
      · exact Or.inl h1
      · exact Or.inr ⟨y, List.mem_cons_of_mem _ hy, hys⟩
    | setCookie n v o =>
      simp only [List.cons_append, savedFirst, Bool.and_eq_true] at h
      rcases ih saved _ h.2 rfl with h1 | ⟨y, hy, hys⟩
      · exact Or.inl h1
      · exact Or.inr ⟨y, List.mem_cons_of_mem _ hy, hys⟩
    | _ =>
      simp only [List.cons_append, savedFirst] at h
      rcases ih saved _ h rfl with h1 | ⟨y, hy, hys⟩
      · exact Or.inl h1
      · exact Or.inr ⟨y, List.mem_cons_of_mem _ hy, hys⟩

end OidcProvider

namespace OidcProvider

theorem truthy_eq_true_iff (v : Option String) :
    truthy v = true ↔ ∃ s, v = some s ∧ s ≠ "" := by
  cases v with
  | none => simp [truthy]
  | some s => simp [truthy]

theorem ite_truthy_eq_some_iff (field : Option String) (v : String) :
    (if truthy field = true then field else none) = some v ↔ (field = some v ∧ v ≠ "") := by
  cases field with
  | none => simp [truthy]
  | some s =>
    by_cases hs : s = ""
    · subst hs
      simp only [truthy, bne_self_eq_false, Bool.false_eq_true, if_false]
      constructor
      · intro h; cases h
      · rintro ⟨h, hne⟩
        injection h with h
        exact absurd h.symm hne
    · have ht : truthy (some s) = true := by simp [truthy, hs]
      rw [if_pos ht]
      constructor
      · intro h
        injection h with h
        subst h
        exact ⟨rfl, hs⟩
      · intro h; exact h.1

theorem sessionSnapshot_eq_none_iff (s : Session) :
    sessionSnapshot s = none ↔ truthy s.accountId = false := by
  unfold sessionSnapshot
  cases h : s.accountId with
  | none => simp [truthy]
  | some a =>
    by_cases ha : a = ""
    · simp [truthy, ha]
    · simp [truthy, ha]

theorem sessionSnapshot_eq_some (s : Session) (snap : SessionSnapshot)
    (h : sessionSnapshot s = some snap) :
    s.accountId = some snap.accountId ∧
      snap.uid = (if truthy s.uid = true then s.uid else none) ∧
      snap.cookie = (if truthy s.jti = true then s.jti else none) ∧
      snap.acr = (if truthy s.acr = true then s.acr else none) ∧
      snap.amr = s.amr := by
  unfold sessionSnapshot at h
  cases ha : s.accountId with
  | none => rw [ha] at h; cases h
  | some a =>
    rw [ha] at h
    simp only at h
    split at h
    · cases h
    · injection h with h
      subst h
      exact ⟨rfl, rfl, rfl, rfl, rfl⟩

theorem startInteraction_saves (env : Env) (resumeRouteName : String) (ctx : Ctx)
    (d : PromptDecision) (before : List Event)
    (hbefore : ∀ e ∈ before, e.isResolverCall = true) :
    (startInteraction env resumeRouteName ctx d before).trace.filter Event.isSave =
      [Event.save (buildInteractionSession ctx
        (env.urlFor resumeRouteName (returnToParams ctx)) d)
        (env.cookiesShort.get? "maxAge")] := by
  have hcalls : before.filter Event.isSave = [] :=
    filter_of_calls _ _ (fun e he => by cases e <;> simp_all [Event.isResolverCall, Event.isSave])
      hbefore
  cases hsave : env.save (buildInteractionSession ctx
      (env.urlFor resumeRouteName (returnToParams ctx)) d) with
  | error f =>
    rw [startInteraction_of_save_error env resumeRouteName ctx d before f hsave]
    simp only [List.filter_append, hcalls, List.nil_append]
    rfl
  | ok u =>
    cases hdest : env.interactionUrl ctx (buildInteractionSession ctx
        (env.urlFor resumeRouteName (returnToParams ctx)) d) with
    | error f =>
      rw [startInteraction_of_url_error env resumeRouteName ctx d before f hsave hdest]
      simp only [List.filter_append, hcalls, List.nil_append]
      rfl
    | ok destination =>
      rw [startInteraction_of_ok env resumeRouteName ctx d before destination hsave hdest]
      simp only [List.filter_append, hcalls, List.nil_append]
      rfl

end OidcProvider

namespace OidcProvider

theorem startInteraction_savedFirst (env : Env) (resumeRouteName : String) (ctx : Ctx)
    (d : PromptDecision) (before : List Event)
    (hbefore : ∀ e ∈ before, e.isResolverCall = true) :
    savedFirst false (startInteraction env resumeRouteName ctx d before).trace = true := by
  cases hsave : env.save (buildInteractionSession ctx
      (env.urlFor resumeRouteName (returnToParams ctx)) d) with
  | error f =>
    rw [startInteraction_of_save_error env resumeRouteName ctx d before f hsave,
      savedFirst_of_calls _ _ _ hbefore]
    rfl
  | ok u =>
    cases hdest : env.interactionUrl ctx (buildInteractionSession ctx
        (env.urlFor resumeRouteName (returnToParams ctx)) d) with
    | error f =>
      rw [startInteraction_of_url_error env resumeRouteName ctx d before f hsave hdest,
        savedFirst_of_calls _ _ _ hbefore]
      rfl
    | ok destination =>
      rw [startInteraction_of_ok env resumeRouteName ctx d before destination hsave hdest,
        savedFirst_of_calls _ _ _ hbefore]
      rfl

theorem savedFirst_calls (l : List Event) (h : ∀ e ∈ l, e.isResolverCall = true) :
    savedFirst false l = true := by
  have := savedFirst_of_calls false l [] h
  rw [List.append_nil] at this
  rw [this]
  rfl

theorem interactions_savedFirst (env : Env) (sched : Nat → List Nat)
    (resumeRouteName : String) (ctx : Ctx) :
    savedFirst false (interactions env sched resumeRouteName ctx).trace = true := by
  have hcalls := resolvePrompts_calls ctx sched 0 env.interactions
  unfold interactions
  simp only
  split
  · exact savedFirst_calls _ hcalls
  · exact savedFirst_calls _ hcalls
  · split
    · exact savedFirst_calls _ hcalls
    · split
      · exact savedFirst_calls _ hcalls
      · split
        · rw [savedFirst_of_calls _ _ _ hcalls]; rfl
        · rw [savedFirst_of_calls _ _ _ hcalls]; rfl
  · split
    · exact savedFirst_calls _ hcalls
    · exact startInteraction_savedFirst env resumeRouteName ctx _ _ hcalls

end OidcProvider

/-! ## Facts about the calls made by the loop -/

namespace OidcProvider

theorem settleEvents_of_all_false (ctx : Ctx) (p : Nat) (checks : List Check)
    (order : List Nat) (h : ∀ c ∈ checks, c.check ctx = .ok false) :
    settleEvents ctx p checks order = [] := by
  induction order with
  | nil => rfl
  | cons i order ih =>
    unfold settleEvents
    split
    · exact ih
    · rename_i c hc
      have hmem : c ∈ checks := List.getElem?_mem hc
      rw [h c hmem]
      exact ih

theorem evalPrompt_trace_of_none (ctx : Ctx) (p : Nat) (pr : Prompt) (order : List Nat)
    (h : (evalPrompt ctx p pr order).result = .fulfilled none) :
    (evalPrompt ctx p pr order).trace =
      (List.range pr.checks.length).map (Event.checkCalled p) := by
  have hfalse := all_false_of_evalPrompt_none ctx p pr order h
  have hev := settleEvents_of_all_false ctx p pr.checks order hfalse
  unfold evalPrompt at h ⊢
  simp only [hev, List.append_nil] at h ⊢
  split
  · rfl
  · rfl
  · rename_i slots hp
    rw [hp] at h
    simp only at h
    split
    · rename_i hne
      rw [if_pos hne] at h
      exfalso
      split at h
      · cases h
      · exact buildDecision_ne_none _ _ _ h
    · rfl

theorem evalPrompt_promptIndex (ctx : Ctx) (p : Nat) (pr : Prompt) (order : List Nat) :
    ∀ e ∈ (evalPrompt ctx p pr order).trace, e.promptIndex? = some p := by
  have hsettle : ∀ order : List Nat, ∀ e ∈ settleEvents ctx p pr.checks order,
      e.promptIndex? = some p := by
    intro order
    induction order with
    | nil => intro e he; cases he
    | cons i order ih =>
      intro e he
      unfold settleEvents at he
      split at he
      · exact ih e he
      · split at he
        · cases he
        · exact ih e he
        · split at he
          · have : e = Event.checkDetailsCalled p i := by simpa using he
            subst this; rfl
          · rcases List.mem_cons.1 he with h | h
            · subst h; rfl
            · exact ih e h
  have hcalled : ∀ e ∈ (List.range pr.checks.length).map (Event.checkCalled p) ++
      settleEvents ctx p pr.checks order, e.promptIndex? = some p := by
    intro e he
    rcases List.mem_append.1 he with h | h
    · obtain ⟨i, _, hi⟩ := List.mem_map.1 h
      subst hi; rfl
    · exact hsettle order e h
  have hmore : ∀ e ∈ ((List.range pr.checks.length).map (Event.checkCalled p) ++
      settleEvents ctx p pr.checks order) ++ [Event.promptDetailsCalled p],
      e.promptIndex? = some p := by
    intro e he
    rcases List.mem_append.1 he with h | h
    · exact hcalled e h
    · have : e = Event.promptDetailsCalled p := by simpa using h
      subst this; rfl
  unfold evalPrompt
  simp only
  split
  · exact hcalled
  · exact hcalled
  · split
    · split
      · exact hmore
      · exact hmore
    · exact hcalled

/-- A run of the loop that does not end without a prompt stopped at some prompt: the
prompts before it have only false predicates, the result is that of its evaluation, and
the trace is one call of each predicate of the prompts before it, then its own trace. -/
theorem resolvePrompts_split (ctx : Ctx) (sched : Nat → List Nat) (p : Nat)
    (prompts : List Prompt)
    (h : (resolvePrompts ctx sched p prompts).result ≠ .fulfilled none) :
    ∃ before pr after, prompts = before ++ pr :: after ∧
      (∀ q ∈ before, ∀ c ∈ q.checks, c.check ctx = .ok false) ∧
      (evalPrompt ctx (p + before.length) pr (sched (p + before.length))).result =
        (resolvePrompts ctx sched p prompts).result ∧
      (resolvePrompts ctx sched p prompts).trace =
        predicateCalls p before ++
          (evalPrompt ctx (p + before.length) pr (sched (p + before.length))).trace := by
  induction prompts generalizing p with
  | nil => exact absurd rfl h
  | cons pr rest ih =>
    by_cases hhead : (evalPrompt ctx p pr (sched p)).result = .fulfilled none
    · have hres := resolvePrompts_cons_of_none ctx sched p pr rest hhead
      have htrace : (resolvePrompts ctx sched p (pr :: rest)).trace =
          (evalPrompt ctx p pr (sched p)).trace ++
            (resolvePrompts ctx sched (p + 1) rest).trace := by
        simp only [resolvePrompts, hhead]
      rw [hres] at h
      obtain ⟨before, q, after, hsplit, hfalse, hev, htr⟩ := ih (p + 1) h
      have hidx : p + 1 + before.length = p + (pr :: before).length := by
        simp only [List.length_cons]; omega
      refine ⟨pr :: before, q, after, by rw [hsplit]; rfl, ?_, ?_, ?_⟩
      · intro x hx
        rcases List.mem_cons.1 hx with e | e
        · subst e
          exact all_false_of_evalPrompt_none ctx p x _ hhead
        · exact hfalse x e
      · rw [← hidx, hev, hres]
      · rw [htrace, htr, evalPrompt_trace_of_none ctx p pr _ hhead, ← hidx]
        simp only [predicateCalls, List.append_assoc]
    · refine ⟨[], pr, rest, rfl, ?_, ?_, ?_⟩
      · intro q hq; cases hq
      · rw [resolvePrompts_cons_of_ne ctx sched p pr rest hhead]
        rfl
      · have htrace : (resolvePrompts ctx sched p (pr :: rest)).trace =
            (evalPrompt ctx p pr (sched p)).trace := by
          simp only [resolvePrompts]
        rw [htrace]
        rfl

theorem mem_predicateCalls (p : Nat) (l : List Prompt) (e : Event)
    (h : e ∈ predicateCalls p l) :
    ∃ j i q, e = Event.checkCalled (p + j) i ∧ l[j]? = some q ∧ i < q.checks.length := by
  induction l generalizing p with
  | nil => cases h
  | cons q rest ih =>
    simp only [predicateCalls] at h
    rcases List.mem_append.1 h with h | h
    · obtain ⟨i, hi, hie⟩ := List.mem_map.1 h
      exact ⟨0, i, q, by rw [← hie]; rfl, List.getElem?_cons_zero, List.mem_range.1 hi⟩
    · obtain ⟨j, i, x, he, hx, hi⟩ := ih (p + 1) h
      refine ⟨j + 1, i, x, ?_, ?_, hi⟩
      · rw [he]
        have : p + 1 + j = p + (j + 1) := by omega
        rw [this]
      · simpa using hx

theorem predicateCalls_mem (p : Nat) (l : List Prompt) (j i : Nat) (q : Prompt)
    (hq : l[j]? = some q) (hi : i < q.checks.length) :
    Event.checkCalled (p + j) i ∈ predicateCalls p l := by
  induction l generalizing p j with
  | nil => simp at hq
  | cons x rest ih =>
    simp only [predicateCalls]
    cases j with
    | zero =>
      have hx : x = q := by simpa using hq
      subst hx
      apply List.mem_append_left
      exact List.mem_map.2 ⟨i, List.mem_range.2 hi, rfl⟩
    | succ j =>
      apply List.mem_append_right
      have hq2 : rest[j]? = some q := by simpa using hq
      have := ih (p + 1) j hq2
      have hidx : p + 1 + j = p + (j + 1) := by omega
      rw [hidx] at this
      exact this

theorem predicateCalls_nodup (p : Nat) (l : List Prompt) : (predicateCalls p l).Nodup := by
  induction l generalizing p with
  | nil => exact List.nodup_nil
  | cons q rest ih =>
    simp only [predicateCalls]
    rw [List.nodup_append]
    refine ⟨?_, ih (p + 1), ?_⟩
    · apply List.Nodup.map _ (List.nodup_range _)
      intro a b hab
      injection hab
    · intro e he1 he2
      obtain ⟨i, _, hie⟩ := List.mem_map.1 he1
      obtain ⟨j, i2, x, he, _, _⟩ := mem_predicateCalls (p + 1) rest e he2
      rw [← hie] at he
      injection he with hp _
      omega

end OidcProvider

namespace OidcProvider

theorem buildDecision_some (name : String) (results : JsObject CheckFailure)
    (pd : JsObject JsValue) (d : PromptDecision) (f : FailedCheck)
    (h : buildDecision name results pd = .fulfilled (some (d, f))) :
    d.name = name ∧ d.reasons = results.keys ∧ results ≠ [] := by
  unfold buildDecision at h
  cases results with
  | nil => cases h
  | cons e rest =>
    simp only [JsObject.entries] at h
    injection h with h
    injection h with h
    injection h with hd hf
    subst hd
    exact ⟨rfl, rfl, by simp⟩

theorem evalPrompt_some (ctx : Ctx) (p : Nat) (pr : Prompt) (order : List Nat)
    (d : PromptDecision) (f : FailedCheck)
    (h : (evalPrompt ctx p pr order).result = .fulfilled (some (d, f))) :
    d.name = pr.name ∧ d.reasons ≠ [] := by
  unfold evalPrompt at h
  split at h
  · cases h
  · cases h
  · simp only at h
    split at h
    · split at h
      · case _ => cases h
      · obtain ⟨hn, hr, hne⟩ := buildDecision_some _ _ _ d f h
        refine ⟨hn, ?_⟩
        rw [hr]
        intro hk
        apply hne
        simpa [JsObject.keys] using hk
    · cases h

theorem exists_first_not_false (ctx : Ctx) (prompts : List Prompt)
    (h : ¬ ∀ pr ∈ prompts, ∀ c ∈ pr.checks, c.check ctx = .ok false) :
    ∃ before pr after, prompts = before ++ pr :: after ∧
      (∀ q ∈ before, ∀ c ∈ q.checks, c.check ctx = .ok false) ∧
      ∃ c ∈ pr.checks, c.check ctx ≠ .ok false := by
  induction prompts with
  | nil =>
    exfalso
    apply h
    intro pr hpr
    cases hpr
  | cons pr rest ih =>
    by_cases hhead : ∀ c ∈ pr.checks, c.check ctx = .ok false
    · have hrest : ¬ ∀ q ∈ rest, ∀ c ∈ q.checks, c.check ctx = .ok false := by
        intro hall
        apply h
        intro q hq
        rcases List.mem_cons.1 hq with e | e
        · subst e; exact hhead
        · exact hall q e
      obtain ⟨before, q, after, hsplit, hfalse, hc⟩ := ih hrest
      refine ⟨pr :: before, q, after, by rw [hsplit]; rfl, ?_, hc⟩
      intro x hx
      rcases List.mem_cons.1 hx with e | e
      · subst e; exact hhead
      · exact hfalse x e
    · refine ⟨[], pr, rest, rfl, ?_, ?_⟩
      · intro q hq
        cases hq
      by_contra hno
      apply hhead
      intro c hc
      by_contra hne
      exact hno ⟨c, hc, hne⟩

theorem settlesAll_take (sched : Nat → List Nat) (p : Nat) (a b : List Prompt)
    (h : SettlesAll sched p (a ++ b)) : SettlesAll sched p a :=
  ((settlesAll_append sched p a b).1 h).1

end OidcProvider

/-! ## Facts about rejections -/

namespace OidcProvider

theorem checkTask_eq_error_iff (ctx : Ctx) (c : Check) (g : Failure) :
    checkTask ctx c = .error g ↔ checkFailsWith ctx c g := by
  unfold checkTask checkFailsWith
  cases hc : c.check ctx with
  | error e => simp
  | ok b =>
    cases b with
    | false => simp
    | true =>
      cases hd : c.details ctx with
      | error e => simp
      | ok v => simp

theorem settle_rejects {α : Type} (tasks : List (Except Failure α)) (order : List Nat)
    (slots : List (Option α))
    (h : ∃ i ∈ order, ∃ g : Failure, tasks[i]? = some (Except.error g)) :
    ∃ (j : Nat) (g : Failure),
      tasks[j]? = some (Except.error g) ∧ settle tasks order slots = .rejected g := by
  induction order generalizing slots with
  | nil =>
    obtain ⟨i, hi, _⟩ := h
    cases hi
  | cons k order ih =>
    have hrest : tasks[k]? = none ∨ (∃ v, tasks[k]? = some (Except.ok v)) →
        ∃ i ∈ order, ∃ g : Failure, tasks[i]? = some (Except.error g) := by
      intro hk
      obtain ⟨i, hi, g, hg⟩ := h
      rcases List.mem_cons.1 hi with e | e
      · subst e
        rcases hk with hk | ⟨v, hk⟩
        · rw [hk] at hg; cases hg
        · rw [hk] at hg; cases hg
      · exact ⟨i, e, g, hg⟩
    unfold settle
    cases hk : tasks[k]? with
    | none => exact ih slots (hrest (Or.inl hk))
    | some t =>
      cases t with
      | error g => exact ⟨k, g, hk, rfl⟩
      | ok v => exact ih _ (hrest (Or.inr ⟨v, hk⟩))

theorem promiseAll_rejects {α : Type} (tasks : List (Except Failure α)) (order : List Nat)
    (hs : Settles order tasks.length)
    (h : ∃ t ∈ tasks, ∃ g, t = Except.error g) :
    ∃ t ∈ tasks, ∃ g, t = Except.error g ∧ promiseAll tasks order = .rejected g := by
  obtain ⟨t, ht, g, hg⟩ := h
  obtain ⟨i, hi⟩ := List.mem_iff_getElem?.1 ht
  have hlt : i < tasks.length := by
    by_contra hge
    rw [List.getElem?_eq_none (by omega)] at hi
    cases hi
  obtain ⟨j, g2, hj, hres⟩ := settle_rejects tasks order (List.replicate tasks.length none)
    ⟨i, hs i hlt, g, by rw [hi, hg]⟩
  exact ⟨_, List.getElem?_mem hj, g2, rfl, hres⟩

theorem evalPrompt_rejects_of_check (ctx : Ctx) (p : Nat) (pr : Prompt) (order : List Nat)
    (hs : Settles order pr.checks.length)
    (h : ∃ c ∈ pr.checks, ∃ g, checkFailsWith ctx c g) :
    ∃ c ∈ pr.checks, ∃ g, checkFailsWith ctx c g ∧
      (evalPrompt ctx p pr order).result = .rejected g := by
  obtain ⟨c, hc, g, hg⟩ := h
  obtain ⟨t, ht, g2, htg, hres⟩ := promiseAll_rejects (pr.checks.map (checkTask ctx)) order
    (by simpa using hs)
    ⟨checkTask ctx c, List.mem_map_of_mem _ hc, g, (checkTask_eq_error_iff ctx c g).2 hg⟩
  obtain ⟨c2, hc2, hct⟩ := List.mem_map.1 ht
  refine ⟨c2, hc2, g2, (checkTask_eq_error_iff ctx c2 g2).1 (by rw [hct, htg]), ?_⟩
  unfold evalPrompt
  rw [hres]

theorem evalPrompt_rejects_of_details (ctx : Ctx) (p : Nat) (pr : Prompt) (order : List Nat)
    (g : Failure)
    (hs : Settles order pr.checks.length)
    (hb : ∀ c ∈ pr.checks, (c.check ctx).isOk = true)
    (hd : ∀ c ∈ pr.checks, c.check ctx = .ok true → (c.details ctx).isOk = true)
    (hsome : ∃ c ∈ pr.checks, c.check ctx = .ok true)
    (hpd : pr.details ctx = .error g) :
    (evalPrompt ctx p pr order).result = .rejected g := by
  have htasks : pr.checks.map (checkTask ctx) =
      (pr.checks.map (fun c => if holds ctx c then some [failureEntry ctx c] else none)).map
        Except.ok := by
    rw [List.map_map]
    apply List.map_congr_left
    intro c hc
    exact checkTask_of_returns ctx c (exists_ok_of_isOk _ (hb c hc))
      (fun ht => exists_ok_of_isOk _ (hd c hc ht))
  have hne : (List.filter (holds ctx) pr.checks).length ≠ 0 := by
    obtain ⟨c, hc, hct⟩ := hsome
    have : c ∈ List.filter (holds ctx) pr.checks :=
      List.mem_filter.2 ⟨hc, (holds_eq_true_iff ctx c).2 hct⟩
    intro h0
    rw [List.length_eq_zero.1 h0] at this
    cases this
  unfold evalPrompt
  rw [htasks, promiseAll_of_ok _ _ (by simpa using hs)]
  simp only [filterMap_ite_some, List.length_map]
  rw [if_pos hne, hpd]

theorem resolvePrompts_at (ctx : Ctx) (sched : Nat → List Nat)
    (before : List Prompt) (pr : Prompt) (after : List Prompt) (g : Failure)
    (hbefore : ∀ q ∈ before, ∀ c ∈ q.checks, c.check ctx = .ok false)
    (hs : SettlesAll sched 0 before)
    (hev : (evalPrompt ctx before.length pr (sched before.length)).result = .rejected g) :
    (resolvePrompts ctx sched 0 (before ++ pr :: after)).result = .rejected g := by
  rw [resolvePrompts_skip ctx sched 0 before _ hs hbefore, Nat.zero_add,
    resolvePrompts_cons_of_ne ctx sched _ pr after (by rw [hev]; intro e; cases e), hev]

end OidcProvider

/-! ## Properties of the interaction session -/

namespace OidcProvider

/-- C11. In the one interaction session the middleware saves, the session snapshot is
absent exactly when the account id of the session is not truthy; when present, its
accountId is the account id of the session, and each of uid, cookie (the jti of the
session) and acr is present, with the value of the session, exactly when the session has
a non-empty value for it, and amr exactly when the session has one: no member is ever
there with an empty string or a null in place of a missing value. -/
theorem interaction_session_snapshot (env : Env) (sched : Nat → List Nat)
    (resumeRouteName : String) (ctx : Ctx) (d : PromptDecision) (f : FailedCheck)
    (hfound : (resolvePrompts ctx sched 0 env.interactions).result = .fulfilled (some (d, f)))
    (hinteractive : ctx.promptNone = false) :
    ∃ s maxAge,
      (interactions env sched resumeRouteName ctx).trace.filter Event.isSave =
        [Event.save s maxAge] ∧
      s.accountId = ctx.session.accountId ∧
      (s.session = none ↔ truthy ctx.session.accountId = false) ∧
      ∀ snap, s.session = some snap →
        ctx.session.accountId = some snap.accountId ∧
        (∀ v, snap.uid = some v ↔ (ctx.session.uid = some v ∧ v ≠ "")) ∧
        (∀ v, snap.cookie = some v ↔ (ctx.session.jti = some v ∧ v ≠ "")) ∧
        (∀ v, snap.acr = some v ↔ (ctx.session.acr = some v ∧ v ≠ "")) ∧
        (∀ v, snap.amr = some v ↔ ctx.session.amr = some v) := by
  refine ⟨buildInteractionSession ctx (env.urlFor resumeRouteName (returnToParams ctx)) d,
    env.cookiesShort.get? "maxAge", ?_, rfl, ?_, ?_⟩
  · rw [interactions_of_interactive env sched resumeRouteName ctx d f hfound hinteractive]
    exact startInteraction_saves env resumeRouteName ctx d _
      (resolvePrompts_calls ctx sched 0 env.interactions)
  · exact sessionSnapshot_eq_none_iff ctx.session
  · intro snap hsnap
    obtain ⟨hacc, huid, hcookie, hacr, hamr⟩ := sessionSnapshot_eq_some ctx.session snap hsnap
    refine ⟨hacc, ?_, ?_, ?_, ?_⟩
    · intro v; rw [huid]; exact ite_truthy_eq_some_iff _ v
    · intro v; rw [hcookie]; exact ite_truthy_eq_some_iff _ v
    · intro v; rw [hacr]; exact ite_truthy_eq_some_iff _ v
    · intro v; rw [hamr]

/-- C11 at a request of `bob`, whose session has a uid, no jti, an empty acr and an empty
list of amr values. -/
theorem interaction_session_snapshot_witness :
    ∃ s maxAge,
      (interactions Examples.env Examples.sched "resume" Examples.bobNoScope).trace.filter
          Event.isSave = [Event.save s maxAge] ∧
      s.accountId = Examples.bobNoScope.session.accountId ∧
      (s.session = none ↔ truthy Examples.bobNoScope.session.accountId = false) ∧
      ∀ snap, s.session = some snap →
        Examples.bobNoScope.session.accountId = some snap.accountId ∧
        (∀ v, snap.uid = some v ↔ (Examples.bobNoScope.session.uid = some v ∧ v ≠ "")) ∧
        (∀ v, snap.cookie = some v ↔ (Examples.bobNoScope.session.jti = some v ∧ v ≠ "")) ∧
        (∀ v, snap.acr = some v ↔ (Examples.bobNoScope.session.acr = some v ∧ v ≠ "")) ∧
        (∀ v, snap.amr = some v ↔ Examples.bobNoScope.session.amr = some v) :=
  interaction_session_snapshot Examples.env Examples.sched "resume" Examples.bobNoScope
    Examples.consentDecision Examples.consentFailedCheck (by decide) rfl

/-- C12. When a prompt is selected, `prompt=none` is not pending, the store saves and the
destination resolver returns, the effects of the middleware other than the calls of the
checks and details resolvers are, in this order: one save of an interaction session whose
uid is the uid of the request and whose prompt is the selected decision, one call of the
destination resolver with that session, the `interaction` cookie, the `resume` cookie, the
debug line, one `interaction.started` event carrying the decision, and the redirect to
the destination the resolver returned; `next` is not called and the middleware returns. -/
theorem interaction_started (env : Env) (sched : Nat → List Nat)
    (resumeRouteName : String) (ctx : Ctx) (d : PromptDecision) (f : FailedCheck)
    (destination : String)
    (hfound : (resolvePrompts ctx sched 0 env.interactions).result = .fulfilled (some (d, f)))
    (hinteractive : ctx.promptNone = false)
    (hsave : env.save (buildInteractionSession ctx
      (env.urlFor resumeRouteName (returnToParams ctx)) d) = .ok ())
    (hdest : env.interactionUrl ctx (buildInteractionSession ctx
      (env.urlFor resumeRouteName (returnToParams ctx)) d) = .ok destination) :
    ∃ s maxAge interactionOptions resumeOptions,
      (interactions env sched resumeRouteName ctx).trace.filter
          (fun e => !e.isResolverCall) =
        [ Event.save s maxAge,
          Event.interactionUrlCalled s,
          Event.setCookie (env.cookieName "interaction") ctx.uid interactionOptions,
          Event.setCookie (env.cookieName "resume") ctx.uid resumeOptions,
          Event.debug "oidc-provider:authentication:interrupted",
          Event.emit "interaction.started" (some d),
          Event.redirect destination ] ∧
      s.uid = ctx.uid ∧
      s.prompt = d ∧
      Event.next ∉ (interactions env sched resumeRouteName ctx).trace ∧
      (interactions env sched resumeRouteName ctx).outcome = .returned := by
  have hcalls := filter_effects_of_calls _ (resolvePrompts_calls ctx sched 0 env.interactions)
  have hrun := interactions_of_interactive env sched resumeRouteName ctx d f hfound hinteractive
  rw [startInteraction_of_ok env resumeRouteName ctx d _ destination hsave hdest] at hrun
  refine ⟨buildInteractionSession ctx (env.urlFor resumeRouteName (returnToParams ctx)) d,
    env.cookiesShort.get? "maxAge", interactionCookieOptions env destination,
    resumeCookieOptions env (env.urlFor resumeRouteName (returnToParams ctx)),
    ?_, rfl, rfl, ?_, ?_⟩
  · rw [hrun]
    simp only [List.filter_append, hcalls, List.nil_append]
    rfl
  · rw [hrun]
    intro hmem
    rcases List.mem_append.1 hmem with h | h
    · have := resolvePrompts_calls ctx sched 0 env.interactions _ h
      cases this
    · simp at h
  · rw [hrun]

/-- C12 at an anonymous request: the prompt `login` is selected for the reason
`no_session`, a session is saved, two cookies are set and the request is redirected. -/
theorem interaction_started_witness :
    Examples.loginDecision.reasons = ["no_session"] ∧
      ∃ s maxAge interactionOptions resumeOptions,
        (interactions Examples.env Examples.sched "resume" Examples.anonymous).trace.filter
            (fun e => !e.isResolverCall) =
          [ Event.save s maxAge,
            Event.interactionUrlCalled s,
            Event.setCookie (Examples.env.cookieName "interaction") Examples.anonymous.uid
              interactionOptions,
            Event.setCookie (Examples.env.cookieName "resume") Examples.anonymous.uid
              resumeOptions,
            Event.debug "oidc-provider:authentication:interrupted",
            Event.emit "interaction.started" (some Examples.loginDecision),
            Event.redirect "/interaction/u1" ] ∧
        s.uid = Examples.anonymous.uid ∧
        s.prompt = Examples.loginDecision ∧
        Event.next ∉
          (interactions Examples.env Examples.sched "resume" Examples.anonymous).trace ∧
        (interactions Examples.env Examples.sched "resume" Examples.anonymous).outcome =
          .returned :=
  ⟨rfl, interaction_started Examples.env Examples.sched "resume" Examples.anonymous
    Examples.loginDecision Examples.loginFailedCheck "/interaction/u1" (by decide) rfl rfl rfl⟩

end OidcProvider

/-! ## Properties of the order and of the absence of effects -/

namespace OidcProvider

/-- C14. In every run, whatever comes in the trace as a call of the destination resolver
or as a cookie comes after a save of the interaction session. When a prompt is selected
and `prompt=none` is not pending: if the save rejects, the middleware throws that very
failure and its only effect besides the resolver calls of the loop is the attempted save;
if the save succeeds and the destination resolver rejects, the middleware throws that
very failure and its only effects are the save and the call of the resolver. In both
cases no cookie is set, no `interaction.started` event is emitted, nothing is redirected. -/
theorem persistence_precedes_effects (env : Env) (sched : Nat → List Nat)
    (resumeRouteName : String) (ctx : Ctx) :
    (∀ earlier e later,
      (interactions env sched resumeRouteName ctx).trace = earlier ++ e :: later →
      (e.isInteractionUrlCall = true ∨ e.isSetCookie = true) →
      ∃ x ∈ earlier, x.isSave = true) ∧
    (∀ d f failure,
      (resolvePrompts ctx sched 0 env.interactions).result = .fulfilled (some (d, f)) →
      ctx.promptNone = false →
      env.save (buildInteractionSession ctx
        (env.urlFor resumeRouteName (returnToParams ctx)) d) = .error failure →
      (interactions env sched resumeRouteName ctx).outcome = .threw failure ∧
      (interactions env sched resumeRouteName ctx).trace.filter
          (fun e => !e.isResolverCall) =
        [ Event.save (buildInteractionSession ctx
            (env.urlFor resumeRouteName (returnToParams ctx)) d)
            (env.cookiesShort.get? "maxAge") ]) ∧
    (∀ d f failure,
      (resolvePrompts ctx sched 0 env.interactions).result = .fulfilled (some (d, f)) →
      ctx.promptNone = false →
      env.save (buildInteractionSession ctx
        (env.urlFor resumeRouteName (returnToParams ctx)) d) = .ok () →
      env.interactionUrl ctx (buildInteractionSession ctx
        (env.urlFor resumeRouteName (returnToParams ctx)) d) = .error failure →
      (interactions env sched resumeRouteName ctx).outcome = .threw failure ∧
      (interactions env sched resumeRouteName ctx).trace.filter
          (fun e => !e.isResolverCall) =
        [ Event.save (buildInteractionSession ctx
            (env.urlFor resumeRouteName (returnToParams ctx)) d)
            (env.cookiesShort.get? "maxAge"),
          Event.interactionUrlCalled (buildInteractionSession ctx
            (env.urlFor resumeRouteName (returnToParams ctx)) d) ]) := by
  have hcalls := filter_effects_of_calls _ (resolvePrompts_calls ctx sched 0 env.interactions)
  refine ⟨?_, ?_, ?_⟩
  · intro earlier e later htrace he
    rcases save_before_of_savedFirst false _
      (interactions_savedFirst env sched resumeRouteName ctx) earlier later e htrace he with h | h
    · cases h
    · exact h
  · intro d f failure hfound hinteractive hsave
    rw [interactions_of_interactive env sched resumeRouteName ctx d f hfound hinteractive,
      startInteraction_of_save_error env resumeRouteName ctx d _ failure hsave]
    refine ⟨rfl, ?_⟩
    simp only [List.filter_append, hcalls, List.nil_append]
    rfl
  · intro d f failure hfound hinteractive hsave hdest
    rw [interactions_of_interactive env sched resumeRouteName ctx d f hfound hinteractive,
      startInteraction_of_url_error env resumeRouteName ctx d _ failure hsave hdest]
    refine ⟨rfl, ?_⟩
    simp only [List.filter_append, hcalls, List.nil_append]
    rfl

/-- C14 at an anonymous request to a provider whose interaction store rejects: the
failure of the store is thrown and nothing but the save was attempted. -/
theorem persistence_precedes_effects_witness :
    (interactions Examples.envStoreDown Examples.sched "resume" Examples.anonymous).outcome =
        .threw { thrown := .external "store unavailable" } ∧
      (interactions Examples.envStoreDown Examples.sched "resume"
          Examples.anonymous).trace.filter (fun e => !e.isResolverCall) =
        [ Event.save (buildInteractionSession Examples.anonymous
            (Examples.envStoreDown.urlFor "resume" (returnToParams Examples.anonymous))
            Examples.loginDecision)
            (Examples.envStoreDown.cookiesShort.get? "maxAge") ] :=
  (persistence_precedes_effects Examples.envStoreDown Examples.sched "resume"
    Examples.anonymous).2.1 Examples.loginDecision Examples.loginFailedCheck
    { thrown := .external "store unavailable" } (by decide) rfl rfl

/-- C15. When a prompt is selected and `prompt=none` is pending, the middleware throws,
and its trace is the trace of the loop, which holds only calls of check predicates and
details resolvers: no session is saved, the destination resolver is not called, no cookie
is set, no event is emitted, nothing is redirected and `next` is not called. -/
theorem silent_mode_has_no_effects (env : Env) (sched : Nat → List Nat)
    (resumeRouteName : String) (ctx : Ctx) (d : PromptDecision) (f : FailedCheck)
    (hfound : (resolvePrompts ctx sched 0 env.interactions).result = .fulfilled (some (d, f)))
    (hsilent : ctx.promptNone = true) :
    (∃ failure, (interactions env sched resumeRouteName ctx).outcome = .threw failure) ∧
      (interactions env sched resumeRouteName ctx).trace.filter
        (fun e => !e.isResolverCall) = [] ∧
      (∀ e ∈ (interactions env sched resumeRouteName ctx).trace,
        e.isSave = false ∧ e.isInteractionUrlCall = false ∧ e.isSetCookie = false ∧
        e ≠ Event.next ∧ (∀ event payload, e ≠ Event.emit event payload) ∧
        (∀ destination, e ≠ Event.redirect destination)) := by
  have hcalls := resolvePrompts_calls ctx sched 0 env.interactions
  rw [interactions_of_silent env sched resumeRouteName ctx d f hfound hsilent]
  refine ⟨⟨_, rfl⟩, filter_effects_of_calls _ hcalls, ?_⟩
  intro e he
  have hcall := hcalls e he
  cases e <;> simp_all [Event.isResolverCall, Event.isSave, Event.isInteractionUrlCall,
    Event.isSetCookie]

/-- C15 at an anonymous `prompt=none` request on the device authorization route. -/
theorem silent_mode_has_no_effects_witness :
    (∃ failure,
        (interactions Examples.env Examples.sched "resume" Examples.silentDevice).outcome =
          .threw failure) ∧
      (interactions Examples.env Examples.sched "resume" Examples.silentDevice).trace.filter
        (fun e => !e.isResolverCall) = [] ∧
      (∀ e ∈ (interactions Examples.env Examples.sched "resume" Examples.silentDevice).trace,
        e.isSave = false ∧ e.isInteractionUrlCall = false ∧ e.isSetCookie = false ∧
        e ≠ Event.next ∧ (∀ event payload, e ≠ Event.emit event payload) ∧
        (∀ destination, e ≠ Event.redirect destination)) :=
  silent_mode_has_no_effects Examples.env Examples.sched "resume" Examples.silentDevice
    Examples.loginDecision Examples.loginFailedCheck (by decide) rfl

end OidcProvider

/-! ## Properties of the result and of the calls of the loop -/

namespace OidcProvider

/-- C13, as stated, fails: at a prompt whose only check has the reason `__proto__` and a
true predicate, every check settles and every collaborator returns, yet the run of the
loop yields neither of the two: it does not end without a prompt and it produces no
prompt decision (it throws the `TypeError` of the destructuring of the empty merged
results). -/
theorem proto_run_yields_neither :
    SettlesAll Examples.schedInOrder 0 [Examples.protoPrompt] ∧
      Returns Examples.anonymous Examples.protoPrompt ∧
      (resolvePrompts Examples.anonymous Examples.schedInOrder 0
        [Examples.protoPrompt]).result ≠ .fulfilled none ∧
      decisionOf (resolvePrompts Examples.anonymous Examples.schedInOrder 0
        [Examples.protoPrompt]).result = none :=
  ⟨⟨by decide, trivial⟩, by decide, by decide, by decide⟩

/-- C13, amended. A prompt decision the loop produces has a reason. And every run of the
loop in which every check settles, every collaborator returns and every prompt that has
a check whose predicate is true has such a check with a reason other than `__proto__`
yields exactly one of the two: no prompt, which it does when every predicate is false,
or one prompt decision with a reason, which it does when some predicate is true. -/
theorem decision_has_reasons (ctx : Ctx) (sched : Nat → List Nat) (prompts : List Prompt) :
    (∀ d f, (resolvePrompts ctx sched 0 prompts).result = .fulfilled (some (d, f)) →
      d.reasons ≠ []) ∧
    (SettlesAll sched 0 prompts →
      (∀ pr ∈ prompts, Returns ctx pr) →
      (∀ pr ∈ prompts, (∃ c ∈ pr.checks, c.check ctx = .ok true) →
        ∃ c ∈ pr.checks, c.check ctx = .ok true ∧ c.reason ≠ "__proto__") →
      ((∀ pr ∈ prompts, ∀ c ∈ pr.checks, c.check ctx = .ok false) →
        (resolvePrompts ctx sched 0 prompts).result = .fulfilled none) ∧
      ((∃ pr ∈ prompts, ∃ c ∈ pr.checks, c.check ctx = .ok true) →
        ∃ d f, (resolvePrompts ctx sched 0 prompts).result = .fulfilled (some (d, f)) ∧
          d.reasons ≠ []) ∧
      ((resolvePrompts ctx sched 0 prompts).result = .fulfilled none ∨
        ∃ d f, (resolvePrompts ctx sched 0 prompts).result = .fulfilled (some (d, f)) ∧
          d.reasons ≠ []) ∧
      ¬ ((resolvePrompts ctx sched 0 prompts).result = .fulfilled none ∧
        ∃ d f, (resolvePrompts ctx sched 0 prompts).result = .fulfilled (some (d, f)))) := by
  have hreasons : ∀ d f,
      (resolvePrompts ctx sched 0 prompts).result = .fulfilled (some (d, f)) →
      d.reasons ≠ [] := by
    intro d f h
    obtain ⟨before, pr, after, _, _, hev, _⟩ :=
      resolvePrompts_split ctx sched 0 prompts (by rw [h]; intro e; cases e)
    rw [h] at hev
    exact (evalPrompt_some ctx _ pr _ d f hev).2
  refine ⟨hreasons, ?_⟩
  intro hs hret hproto
  have hnone : (∀ pr ∈ prompts, ∀ c ∈ pr.checks, c.check ctx = .ok false) →
      (resolvePrompts ctx sched 0 prompts).result = .fulfilled none :=
    (resolvePrompts_none_iff ctx sched 0 prompts hs).2
  have hsome : (¬ ∀ pr ∈ prompts, ∀ c ∈ pr.checks, c.check ctx = .ok false) →
      ∃ d f, (resolvePrompts ctx sched 0 prompts).result = .fulfilled (some (d, f)) ∧
        d.reasons ≠ [] := by
    intro hall
    obtain ⟨before, pr, after, hsplit, hfalse, c, hc, hne⟩ :=
      exists_first_not_false ctx prompts hall
    have hmem : pr ∈ prompts := by rw [hsplit]; simp
    have hpr := hret pr hmem
    have htrue : c.check ctx = .ok true := by
      obtain ⟨b, hb⟩ := exists_ok_of_isOk _ (hpr.1 c hc)
      cases b with
      | false => exact absurd hb hne
      | true => exact hb
    have hs2 : SettlesAll sched 0 (before ++ [pr]) := by
      have : prompts = (before ++ [pr]) ++ after := by rw [hsplit]; simp
      rw [this] at hs
      exact settlesAll_take sched 0 _ _ hs
    obtain ⟨pd, _, hres⟩ := resolvePrompts_found_of_returns ctx sched before pr after
      hfalse ⟨c, hc, htrue⟩ hpr hs2
    have hobj := failedChecksObject_ne_nil ctx pr (hproto pr hmem ⟨c, hc, htrue⟩)
    rw [hsplit, hres]
    unfold buildDecision
    cases hfo : failedChecksObject ctx pr with
    | nil => exact absurd hfo hobj
    | cons e rest =>
      refine ⟨_, _, rfl, ?_⟩
      simp [JsObject.keys]
  refine ⟨hnone, ?_, ?_, ?_⟩
  · rintro ⟨pr, hpr, c, hc, htrue⟩
    apply hsome
    intro hall
    have := hall pr hpr c hc
    rw [htrue] at this
    cases this
  · by_cases hall : ∀ pr ∈ prompts, ∀ c ∈ pr.checks, c.check ctx = .ok false
    · exact Or.inl (hnone hall)
    · exact Or.inr (hsome hall)
  · rintro ⟨h1, d, f, h2⟩
    rw [h1] at h2
    cases h2

/-- C13, amended, at a request of a signed-in end-user that was granted nothing: a
predicate of `consent` is true and the run yields a prompt decision that has a reason. -/
theorem decision_has_reasons_witness :
    (∃ pr ∈ Examples.env.interactions, ∃ c ∈ pr.checks,
        c.check Examples.signedInNoScope = .ok true) ∧
      ∃ d f, (resolvePrompts Examples.signedInNoScope Examples.sched 0
          Examples.env.interactions).result = .fulfilled (some (d, f)) ∧
        d.reasons ≠ [] :=
  ⟨by decide,
    ((decision_has_reasons Examples.signedInNoScope Examples.sched
      Examples.env.interactions).2 ⟨by decide, by decide, trivial⟩ (by decide)
      (by decide)).2.1 (by decide)⟩

/-- C16. When the loop selects a prompt, the configured list splits at the selected
prompt, and the trace of the loop is one call of each check predicate of the prompts
before it, prompt after prompt, followed by the calls made for the selected prompt.
Hence no predicate or details resolver of a later prompt is called, no details resolver
of an earlier prompt is called, and each predicate of an earlier prompt is called exactly
once, before any call made for the selected prompt. -/
theorem short_circuit (ctx : Ctx) (sched : Nat → List Nat) (prompts : List Prompt)
    (d : PromptDecision) (f : FailedCheck)
    (hfound : (resolvePrompts ctx sched 0 prompts).result = .fulfilled (some (d, f))) :
    ∃ before pr after selected,
      prompts = before ++ pr :: after ∧
      d.name = pr.name ∧
      (resolvePrompts ctx sched 0 prompts).trace = predicateCalls 0 before ++ selected ∧
      (∀ e ∈ selected, e.promptIndex? = some before.length) ∧
      (∀ e ∈ (resolvePrompts ctx sched 0 prompts).trace, ∀ j,
        e.promptIndex? = some j → j ≤ before.length) ∧
      (∀ j i, j < before.length →
        Event.checkDetailsCalled j i ∉ (resolvePrompts ctx sched 0 prompts).trace ∧
        Event.promptDetailsCalled j ∉ (resolvePrompts ctx sched 0 prompts).trace) ∧
      (∀ j q i, before[j]? = some q → i < q.checks.length →
        ((resolvePrompts ctx sched 0 prompts).trace.count (Event.checkCalled j i) = 1 ∧
          Event.checkCalled j i ∈ predicateCalls 0 before)) := by
  obtain ⟨before, pr, after, hsplit, _, hev, htrace⟩ :=
    resolvePrompts_split ctx sched 0 prompts (by rw [hfound]; intro e; cases e)
  rw [hfound] at hev
  rw [Nat.zero_add] at hev htrace
  have hsel := evalPrompt_promptIndex ctx before.length pr (sched before.length)
  have hearly : ∀ e ∈ predicateCalls 0 before, ∃ j i,
      e = Event.checkCalled j i ∧ j < before.length := by
    intro e he
    obtain ⟨j, i, q, hje, hq, _⟩ := mem_predicateCalls 0 before e he
    refine ⟨j, i, by rw [hje, Nat.zero_add], ?_⟩
    by_contra hge
    rw [List.getElem?_eq_none (by omega)] at hq
    cases hq
  refine ⟨before, pr, after, _, hsplit, (evalPrompt_some ctx _ pr _ d f hev).1, htrace, hsel,
    ?_, ?_, ?_⟩
  · intro e he j hj
    rw [htrace] at he
    rcases List.mem_append.1 he with h | h
    · obtain ⟨j2, i, hje, hlt⟩ := hearly e h
      subst hje
      simp only [Event.promptIndex?, Option.some.injEq] at hj
      omega
    · rw [hsel e h] at hj
      injection hj with hj
      omega
  · intro j i hj
    rw [htrace]
    constructor
    · intro hmem
      rcases List.mem_append.1 hmem with h | h
      · obtain ⟨j2, i2, hje, _⟩ := hearly _ h
        cases hje
      · have := hsel _ h
        simp only [Event.promptIndex?, Option.some.injEq] at this
        omega
    · intro hmem
      rcases List.mem_append.1 hmem with h | h
      · obtain ⟨j2, i2, hje, _⟩ := hearly _ h
        cases hje
      · have := hsel _ h
        simp only [Event.promptIndex?, Option.some.injEq] at this
        omega
  · intro j q i hq hi
    have hmem : Event.checkCalled j i ∈ predicateCalls 0 before := by
      have := predicateCalls_mem 0 before j i q hq hi
      rwa [Nat.zero_add] at this
    have hj : j < before.length := by
      by_contra hge
      rw [List.getElem?_eq_none (by omega)] at hq
      cases hq
    refine ⟨?_, hmem⟩
    rw [htrace, List.count_append,
      List.count_eq_one_of_mem (predicateCalls_nodup 0 before) hmem,
      List.count_eq_zero_of_not_mem]
    intro hsel2
    have := hsel _ hsel2
    simp only [Event.promptIndex?, Option.some.injEq] at this
    omega

/-- C16 at a request of a signed-in end-user that was granted nothing: `consent` is
selected after the one predicate of `login` was called once. -/
theorem short_circuit_witness :
    ∃ before pr after selected,
      Examples.env.interactions = before ++ pr :: after ∧
      Examples.consentDecision.name = pr.name ∧
      (resolvePrompts Examples.signedInNoScope Examples.sched 0
        Examples.env.interactions).trace = predicateCalls 0 before ++ selected ∧
      (∀ e ∈ selected, e.promptIndex? = some before.length) ∧
      (∀ e ∈ (resolvePrompts Examples.signedInNoScope Examples.sched 0
          Examples.env.interactions).trace, ∀ j,
        e.promptIndex? = some j → j ≤ before.length) ∧
      (∀ j i, j < before.length →
        Event.checkDetailsCalled j i ∉ (resolvePrompts Examples.signedInNoScope
          Examples.sched 0 Examples.env.interactions).trace ∧
        Event.promptDetailsCalled j ∉ (resolvePrompts Examples.signedInNoScope
          Examples.sched 0 Examples.env.interactions).trace) ∧
      (∀ j q i, before[j]? = some q → i < q.checks.length →
        ((resolvePrompts Examples.signedInNoScope Examples.sched 0
            Examples.env.interactions).trace.count (Event.checkCalled j i) = 1 ∧
          Event.checkCalled j i ∈ predicateCalls 0 before)) :=
  short_circuit Examples.signedInNoScope Examples.sched Examples.env.interactions
    Examples.consentDecision Examples.consentFailedCheck (by decide)

end OidcProvider

/-! ## Properties of the propagation of failures -/

namespace OidcProvider

/-- C17. A rejection of the loop is thrown by the middleware as it is, and nothing but
calls of check predicates and details resolvers happened: no `next`, no save, no cookie,
no event, no redirect. The loop rejects when a collaborator it calls rejects: when the
loop reaches a prompt of which the closure of some check rejects (its predicate rejects,
or its predicate returns true and its details resolver rejects), the middleware throws
the failure of such a closure, the one that rejects first, which is that of the check
when no other closure rejects with another failure; and when the checks return, one
predicate is true and the details resolver of the prompt rejects, the middleware throws
that failure. -/
theorem collaborator_failure_propagates (env : Env) (sched : Nat → List Nat)
    (resumeRouteName : String) (ctx : Ctx) :
    (∀ g, (resolvePrompts ctx sched 0 env.interactions).result = .rejected g →
      (interactions env sched resumeRouteName ctx).outcome = .threw g ∧
      (interactions env sched resumeRouteName ctx).trace.filter
        (fun e => !e.isResolverCall) = []) ∧
    (∀ before pr after, env.interactions = before ++ pr :: after →
      (∀ q ∈ before, ∀ c ∈ q.checks, c.check ctx = .ok false) →
      SettlesAll sched 0 (before ++ [pr]) →
      (∃ c ∈ pr.checks, ∃ g, checkFailsWith ctx c g) →
      ∃ c ∈ pr.checks, ∃ g, checkFailsWith ctx c g ∧
        (interactions env sched resumeRouteName ctx).outcome = .threw g ∧
        (interactions env sched resumeRouteName ctx).trace.filter
          (fun e => !e.isResolverCall) = []) ∧
    (∀ before pr after g, env.interactions = before ++ pr :: after →
      (∀ q ∈ before, ∀ c ∈ q.checks, c.check ctx = .ok false) →
      SettlesAll sched 0 (before ++ [pr]) →
      (∃ c ∈ pr.checks, checkFailsWith ctx c g) →
      (∀ c ∈ pr.checks, ∀ g2, checkFailsWith ctx c g2 → g2 = g) →
      (interactions env sched resumeRouteName ctx).outcome = .threw g) ∧
    (∀ before pr after g, env.interactions = before ++ pr :: after →
      (∀ q ∈ before, ∀ c ∈ q.checks, c.check ctx = .ok false) →
      SettlesAll sched 0 (before ++ [pr]) →
      (∀ c ∈ pr.checks, (c.check ctx).isOk = true) →
      (∀ c ∈ pr.checks, c.check ctx = .ok true → (c.details ctx).isOk = true) →
      (∃ c ∈ pr.checks, c.check ctx = .ok true) →
      pr.details ctx = .error g →
      (interactions env sched resumeRouteName ctx).outcome = .threw g ∧
      (interactions env sched resumeRouteName ctx).trace.filter
        (fun e => !e.isResolverCall) = []) := by
  have hprop : ∀ g, (resolvePrompts ctx sched 0 env.interactions).result = .rejected g →
      (interactions env sched resumeRouteName ctx).outcome = .threw g ∧
      (interactions env sched resumeRouteName ctx).trace.filter
        (fun e => !e.isResolverCall) = [] := by
    intro g hg
    rw [interactions_of_rejected env sched resumeRouteName ctx g hg]
    exact ⟨rfl, filter_effects_of_calls _ (resolvePrompts_calls ctx sched 0 env.interactions)⟩
  have hcheck : ∀ before pr after, env.interactions = before ++ pr :: after →
      (∀ q ∈ before, ∀ c ∈ q.checks, c.check ctx = .ok false) →
      SettlesAll sched 0 (before ++ [pr]) →
      (∃ c ∈ pr.checks, ∃ g, checkFailsWith ctx c g) →
      ∃ c ∈ pr.checks, ∃ g, checkFailsWith ctx c g ∧
        (resolvePrompts ctx sched 0 env.interactions).result = .rejected g := by
    intro before pr after hsplit hbefore hs hfail
    rw [settlesAll_append] at hs
    obtain ⟨c, hc, g, hg, hev⟩ :=
      evalPrompt_rejects_of_check ctx before.length pr (sched before.length)
        (by simpa using hs.2.1) hfail
    refine ⟨c, hc, g, hg, ?_⟩
    rw [hsplit]
    exact resolvePrompts_at ctx sched before pr after g hbefore hs.1 hev
  refine ⟨hprop, ?_, ?_, ?_⟩
  · intro before pr after hsplit hbefore hs hfail
    obtain ⟨c, hc, g, hg, hres⟩ := hcheck before pr after hsplit hbefore hs hfail
    exact ⟨c, hc, g, hg, hprop g hres⟩
  · intro before pr after g hsplit hbefore hs hfail hsame
    obtain ⟨c0, hc0, hg0⟩ := hfail
    obtain ⟨c, hc, g2, hg2, hres⟩ := hcheck before pr after hsplit hbefore hs ⟨c0, hc0, g, hg0⟩
    have := hsame c hc g2 hg2
    subst this
    exact (hprop g2 hres).1
  · intro before pr after g hsplit hbefore hs hb hd hsome hpd
    rw [settlesAll_append] at hs
    have hev := evalPrompt_rejects_of_details ctx before.length pr (sched before.length) g
      (by simpa using hs.2.1) hb hd hsome hpd
    apply hprop
    rw [hsplit]
    exact resolvePrompts_at ctx sched before pr after g hbefore hs.1 hev

/-- C17 at a signed-in request to a provider whose second prompt has a check of which
the predicate rejects: the middleware throws the failure of the predicate. -/
theorem collaborator_failure_propagates_witness :
    (interactions { Examples.env with interactions := [Examples.consent, Examples.brokenPrompt] }
        Examples.sched "resume" Examples.signedIn).outcome =
      .threw { thrown := .external "predicate failed" } :=
  (collaborator_failure_propagates
    { Examples.env with interactions := [Examples.consent, Examples.brokenPrompt] }
    Examples.sched "resume" Examples.signedIn).2.2.1
    [Examples.consent] Examples.brokenPrompt [] { thrown := .external "predicate failed" }
    rfl (by decide) ⟨by decide, by decide, trivial⟩ (by decide) (by
      intro c hc g2 hg2
      simp only [Examples.brokenPrompt, List.mem_cons, List.mem_singleton] at hc
      rcases hc with h | h | h
      · subst h
        rcases hg2 with h1 | ⟨h1, _⟩
        · injection h1 with h1
          exact h1.symm
        · cases h1
      · subst h
        rcases hg2 with h1 | ⟨_, h2⟩
        · cases h1
        · cases h2
      · cases h)

end OidcProvider
